import Mathlib

/-!
# Deploy worker of `core/kuberes/deployworker.go`

A shallow embedding of `DeployWorker.Start` and the functions it reaches
(`checkAppRes`, `updateAppRes`, `createAppRes`, `createKubeAppRes`,
`deleteApplication`).

The worker talks to collaborators that are declared elsewhere (the `dao`
application model, `AppRes`, `KubeAppRes`, the template, the patcher).  They
are taken as parameters: a record of state transformers over an arbitrary
world state `σ`.  Every function of the worker returns its Go return value,
the world it leaves behind and the list of collaborator calls it issued, in
program order.  Calls to the logger are not recorded.

A Go call returning `(value, err)` is embedded as `Except Error value`: at
every call site of the worker the value is read only after `err == nil` has
been checked, so the value that comes along with a non-nil error is never
observed.
-/

namespace Kuberes

/-! ## The data and the collaborators -/

/-- Go `error` values.  `ErrNoRows` is `orm.ErrNoRows`; every other error,
those built by `fmt.Errorf` included, carries its message. -/
inductive Error where
  | ErrNoRows
  | msg (text : String)
deriving DecidableEq

/-- The fields of `models.CaasApplication` the worker reads. -/
structure CaasApplication where
  Cluster : String
  Namespace : String
  Name : String
  Kind : String
deriving DecidableEq

/-- The field of `AppParam` the worker reads. -/
structure AppParam where
  Name : String
deriving DecidableEq

/-- The value fields of `AppRes` (its `Client` and `Appmodel` are collaborators). -/
structure AppRes where
  Cluster : String
  ProjectID : Int
deriving DecidableEq

/-- The binding of a `KubeAppRes`. -/
structure KubeAppRes where
  cluster : String
  Namespace : String
  kind : String
deriving DecidableEq

/-- The fields of `query.FilterQuery` set by `deleteApplication`. -/
structure FilterQuery where
  isOr : Bool
  FilterKey : String
  FilterVal : String
deriving DecidableEq

/-- The constructor `query.NewFilterQuery`. -/
def NewFilterQuery (isOr : Bool) : FilterQuery :=
  { isOr := isOr, FilterKey := "", FilterVal := "" }

/-- The struct `ExtensionParam`: the force flag and the optional patcher. -/
structure ExtensionParam (σ : Type) where
  Force : Bool
  Patcher : Option (CaasApplication → σ → σ)

/-- The struct `DeployWorker`; `extension` is a pointer that may be nil. -/
structure DeployWorker (σ τ : Type) where
  Name : String
  arHandle : AppRes
  kubeRes : KubeAppRes
  extension : Option (ExtensionParam σ)
  template : τ

/-- One collaborator call, with the arguments it was issued with. -/
inductive Call (τ : Type) where
  | GetExoticAppListByName (cluster ns name : String)
  | GetAppByName (cluster ns name : String)
  | GetAppList (filter : FilterQuery) (projectID : Int) (cluster ns : String)
  | CreateApp (app : CaasApplication)
  | ModelDeleteApp (app : CaasApplication)
  | ArDeleteApp (ar : AppRes) (ns name : String)
  | ReconfigureApp (ar : AppRes) (app : CaasApplication) (tpl : τ)
  | CheckAppIsExisted (kr : KubeAppRes) (name : String)
  | CreateAppResource (kr : KubeAppRes) (tpl : τ)
  | DeleteAppResource (kr : KubeAppRes) (tpl : τ)
  | GenerateAppObject (tpl : τ) (cluster ns templateName : String) (projectID : Int)
  | Patcher (app : CaasApplication)

/-- The collaborators of the worker, as transformers of the world state.
`ModelDeleteApp` is `Appmodel.DeleteApp(app)`, `ArDeleteApp` is
`(*AppRes).DeleteApp(namespace, name)` on the handle given first. -/
structure Collaborators (σ τ : Type) where
  GetExoticAppListByName : String → String → String → σ → Except Error (List CaasApplication) × σ
  GetAppByName : String → String → String → σ → Except Error CaasApplication × σ
  GetAppList : FilterQuery → Int → String → String → σ → Except Error (List CaasApplication) × σ
  CreateApp : CaasApplication → σ → Option Error × σ
  ModelDeleteApp : CaasApplication → σ → Option Error × σ
  ArDeleteApp : AppRes → String → String → σ → Option Error × σ
  ReconfigureApp : AppRes → CaasApplication → τ → σ → Except Error CaasApplication × σ
  CheckAppIsExisted : KubeAppRes → String → σ → Except Error Bool × σ
  CreateAppResource : KubeAppRes → τ → σ → Option Error × σ
  DeleteAppResource : KubeAppRes → τ → σ → Option Error × σ
  GenerateAppObject : τ → String → String → String → Int → σ → Except Error CaasApplication × σ

/-- How a Go function ends: it returns a value, or it panics on a nil
pointer dereference. -/
inductive Outcome (α : Type) where
  | ret (a : α)
  | panic
deriving DecidableEq

/-- The result of running a piece of the worker: its value, the world it
leaves, and the collaborator calls it issued in order. -/
structure Step (σ τ α : Type) where
  val : α
  world : σ
  calls : List (Call τ)

/-- Modelled from the spec: `NewKubeAppRes`, which is declared outside this
file; the handle is "bound at construction to (client, cluster, namespace,
kind)". -/
def NewKubeAppRes (cluster ns kind : String) : KubeAppRes :=
  { cluster := cluster, Namespace := ns, kind := kind }

/-- The constructor `NewDeployWorker`. -/
def NewDeployWorker {σ τ : Type} (name ns kind : String) (ar : AppRes)
    (eparam : Option (ExtensionParam σ)) (tpl : τ) : DeployWorker σ τ :=
  { Name := name
    arHandle := ar
    kubeRes := NewKubeAppRes ar.Cluster ns kind
    extension := eparam
    template := tpl }

/-- Go's `%v` of a `[]string`. -/
def fmtStrings (l : List String) : String :=
  "[" ++ " ".intercalate l ++ "]"

/-- The message of the `fmt.Errorf` at the end of `checkAppRes`. -/
def conflictMsg (appname : String) (exoticns : List String) (cluster : String) : String :=
  "the application(" ++ appname ++ ") is existed in namespace " ++ fmtStrings exoticns ++
    " of cluster " ++ cluster ++ ", and you have no right to cover the old application"

/-- The method `Error()` of an error value; the text of `orm.ErrNoRows` is
the one the orm package gives it. -/
def Error.message : Error → String
  | Error.ErrNoRows => "<QuerySeter> no row found"
  | Error.msg t => t

/-- The message of the `fmt.Errorf` inside the uninstall loop of `checkAppRes`. -/
def deleteFailedMsg (appname ns cluster : String) (err : Error) : String :=
  "the application(" ++ appname ++ ") is existed in namespace " ++ ns ++ " of cluster " ++
    cluster ++ ", and delete old application failed: " ++ err.message

/-- The uninstall loop of `checkAppRes`: `DeleteApp` on each exotic record,
returning at the first failure. -/
def uninstallLoop {σ τ : Type} (env : Collaborators σ τ) (wk : DeployWorker σ τ)
    (appname : String) : List CaasApplication → σ → Step σ τ (Option Error)
  | [], s => ⟨none, s, []⟩
  | app :: rest, s =>
    match env.ArDeleteApp wk.arHandle app.Namespace app.Name s with
    | (some err, s1) =>
      ⟨some (Error.msg (deleteFailedMsg appname app.Namespace wk.arHandle.Cluster err)), s1,
        [Call.ArDeleteApp wk.arHandle app.Namespace app.Name]⟩
    | (none, s1) =>
      let r := uninstallLoop env wk appname rest s1
      ⟨r.val, r.world, Call.ArDeleteApp wk.arHandle app.Namespace app.Name :: r.calls⟩

/-- The last test of `checkAppRes`: `if len(exoticns) != 0 { return Errorf } ; return nil`. -/
def conflictCheck (appname : String) (exoticns : List String) (cluster : String) : Option Error :=
  if exoticns.length != 0 then some (Error.msg (conflictMsg appname exoticns cluster)) else none

/-- The method `checkAppRes`. -/
def checkAppRes {σ τ : Type} (env : Collaborators σ τ) (wk : DeployWorker σ τ)
    (appname : String) (s : σ) : Step σ τ (Outcome (Option Error)) :=
  let c := Call.GetExoticAppListByName wk.arHandle.Cluster wk.kubeRes.Namespace appname
  match env.GetExoticAppListByName wk.arHandle.Cluster wk.kubeRes.Namespace appname s with
  | (Except.error err, s1) => ⟨Outcome.ret (some err), s1, [c]⟩
  | (Except.ok exoticapps, s1) =>
    if exoticapps.length != 0 then
      match wk.extension with
      | none => ⟨Outcome.panic, s1, [c]⟩
      | some ext =>
        if ext.Force then
          let exoticns := exoticapps.map (fun app => app.Namespace)
          if exoticns.length == 0 then
            let r := uninstallLoop env wk appname exoticapps s1
            match r.val with
            | some e => ⟨Outcome.ret (some e), r.world, c :: r.calls⟩
            | none =>
              ⟨Outcome.ret (conflictCheck appname exoticns wk.arHandle.Cluster), r.world,
                c :: r.calls⟩
          else
            ⟨Outcome.ret (conflictCheck appname exoticns wk.arHandle.Cluster), s1, [c]⟩
        else
          let exoticns := exoticapps.map (fun app => app.Namespace)
          ⟨Outcome.ret (conflictCheck appname exoticns wk.arHandle.Cluster), s1, [c]⟩
    else ⟨Outcome.ret none, s1, [c]⟩

/-- The variables of the loop of `deleteApplication`: the worker, which
holds the `AppRes` behind its pointer `arHandle`, and the local copy `ar` made
by `ar := *wk.arHandle`. -/
structure CleanupVars (σ τ : Type) where
  wk : DeployWorker σ τ
  ar : AppRes

/-- The loop of `deleteApplication`.  The guard reads the worker's handle,
the assignment `ar.Cluster = app.Cluster` writes the local copy, and
`DeleteApp` is called on the copy.  The loop returns its variables as they
stand after the last iteration. -/
def cleanupLoop {σ τ : Type} (env : Collaborators σ τ) :
    CleanupVars σ τ → List CaasApplication → σ → Step σ τ (CleanupVars σ τ)
  | v, [], s => ⟨v, s, []⟩
  | v, app :: rest, s =>
    let chk := Call.CheckAppIsExisted v.wk.kubeRes app.Name
    match env.CheckAppIsExisted v.wk.kubeRes app.Name s with
    | (Except.ok true, s1) =>
      if v.wk.arHandle.Cluster != app.Cluster then
        let v1 : CleanupVars σ τ := { v with ar := { v.ar with Cluster := app.Cluster } }
        let d := env.ArDeleteApp v1.ar app.Namespace app.Name s1
        let r := cleanupLoop env v1 rest d.2
        ⟨r.val, r.world, chk :: Call.ArDeleteApp v1.ar app.Namespace app.Name :: r.calls⟩
      else
        let r := cleanupLoop env v rest s1
        ⟨r.val, r.world, chk :: r.calls⟩
    | (_, s1) =>
      let r := cleanupLoop env v rest s1
      ⟨r.val, r.world, chk :: r.calls⟩

/-- The filter built at the head of `deleteApplication`. -/
def nameFilter (appname : String) : FilterQuery :=
  { NewFilterQuery false with FilterKey := "name", FilterVal := appname }

/-- The method `deleteApplication`.  Its value is the worker as the loop
leaves it (the method itself returns nothing). -/
def deleteApplication {σ τ : Type} (env : Collaborators σ τ) (wk : DeployWorker σ τ)
    (appname : String) (s : σ) : Step σ τ (DeployWorker σ τ) :=
  let filter := nameFilter appname
  let c := Call.GetAppList filter wk.arHandle.ProjectID wk.kubeRes.cluster wk.kubeRes.Namespace
  match env.GetAppList filter wk.arHandle.ProjectID wk.kubeRes.cluster wk.kubeRes.Namespace s with
  | (Except.error _, s1) => ⟨wk, s1, [c]⟩
  | (Except.ok applist, s1) =>
    let r := cleanupLoop env { wk := wk, ar := wk.arHandle } applist s1
    ⟨r.val.wk, r.world, c :: r.calls⟩

/-- The method `updateAppRes`. -/
def updateAppRes {σ τ : Type} (env : Collaborators σ τ) (wk : DeployWorker σ τ)
    (app : CaasApplication) (s : σ) : Step σ τ (Option Error) :=
  let d := deleteApplication env wk app.Name s
  let wk1 := d.val
  let c := Call.ReconfigureApp wk1.arHandle app wk1.template
  match env.ReconfigureApp wk1.arHandle app wk1.template d.world with
  | (Except.error err, s1) => ⟨some err, s1, d.calls ++ [c]⟩
  | (Except.ok _, s1) => ⟨none, s1, d.calls ++ [c]⟩

/-- The method `createKubeAppRes`. -/
def createKubeAppRes {σ τ : Type} (env : Collaborators σ τ) (wk : DeployWorker σ τ)
    (templateName : String) (param : AppParam) (s : σ) :
    Step σ τ (Except Error CaasApplication) :=
  let g := Call.GenerateAppObject wk.template wk.arHandle.Cluster wk.kubeRes.Namespace
    templateName wk.arHandle.ProjectID
  match env.GenerateAppObject wk.template wk.arHandle.Cluster wk.kubeRes.Namespace
      templateName wk.arHandle.ProjectID s with
  | (Except.error err, s1) => ⟨Except.error err, s1, [g]⟩
  | (Except.ok app, s1) =>
    let d := deleteApplication env wk param.Name s1
    let wk1 := d.val
    let c := Call.CreateAppResource wk1.kubeRes wk1.template
    match env.CreateAppResource wk1.kubeRes wk1.template d.world with
    | (some err, s2) => ⟨Except.error err, s2, g :: d.calls ++ [c]⟩
    | (none, s2) => ⟨Except.ok app, s2, g :: d.calls ++ [c]⟩

/-- The patch step at the end of `createAppRes`. -/
def runPatcher {σ τ : Type} (wk : DeployWorker σ τ) (app : CaasApplication) (s : σ) :
    Step σ τ Unit :=
  match wk.extension with
  | none => ⟨(), s, []⟩
  | some ext =>
    match ext.Patcher with
    | none => ⟨(), s, []⟩
    | some patch => ⟨(), patch app s, [Call.Patcher app]⟩

/-- The method `createAppRes`. -/
def createAppRes {σ τ : Type} (env : Collaborators σ τ) (wk : DeployWorker σ τ)
    (templateName : String) (param : AppParam) (s : σ) : Step σ τ (Option Error) :=
  let k := createKubeAppRes env wk templateName param s
  match k.val with
  | Except.error err => ⟨some err, k.world, k.calls⟩
  | Except.ok app =>
    match env.CreateApp app k.world with
    | (some err, s1) =>
      let d1 := env.DeleteAppResource wk.kubeRes wk.template s1
      let d2 := env.ModelDeleteApp app d1.2
      ⟨some err, d2.2, k.calls ++ [Call.CreateApp app,
        Call.DeleteAppResource wk.kubeRes wk.template, Call.ModelDeleteApp app]⟩
    | (none, s1) =>
      let p := runPatcher wk app s1
      ⟨none, p.world, k.calls ++ Call.CreateApp app :: p.calls⟩

/-- The method `Start`. -/
def Start {σ τ : Type} (env : Collaborators σ τ) (wk : DeployWorker σ τ)
    (templateName : String) (param : AppParam) (s : σ) : Step σ τ (Outcome (Option Error)) :=
  let chk := checkAppRes env wk param.Name s
  match chk.val with
  | Outcome.panic => chk
  | Outcome.ret (some _) => chk
  | Outcome.ret none =>
    let c := Call.GetAppByName wk.arHandle.Cluster wk.kubeRes.Namespace param.Name
    match env.GetAppByName wk.arHandle.Cluster wk.kubeRes.Namespace param.Name chk.world with
    | (Except.ok app, s1) =>
      let u := updateAppRes env wk app s1
      ⟨Outcome.ret u.val, u.world, chk.calls ++ c :: u.calls⟩
    | (Except.error err, s1) =>
      if err != Error.ErrNoRows then ⟨Outcome.ret (some err), s1, chk.calls ++ [c]⟩
      else
        let r := createAppRes env wk templateName param s1
        ⟨Outcome.ret r.val, r.world, chk.calls ++ c :: r.calls⟩

/-! ## Vocabulary for the statements -/

/-- The calls that change the registry or the cluster: registry create and
delete, cluster create and delete, reconfigure, and the patch hook. -/
def Call.isMutating {τ : Type} : Call τ → Bool
  | Call.CreateApp _ => true
  | Call.ModelDeleteApp _ => true
  | Call.ArDeleteApp _ _ _ => true
  | Call.ReconfigureApp _ _ _ => true
  | Call.CreateAppResource _ _ => true
  | Call.DeleteAppResource _ _ => true
  | Call.Patcher _ => true
  | _ => false

/-- The calls `deleteApplication` can issue: the registry list, the
existence check and `DeleteApp` on a handle. -/
def Call.isCleanup {τ : Type} : Call τ → Bool
  | Call.GetAppList _ _ _ _ => true
  | Call.CheckAppIsExisted _ _ => true
  | Call.ArDeleteApp _ _ _ => true
  | _ => false

/-- Is the call a `DeleteApp(namespace, name)` on a handle. -/
def Call.isArDeleteApp {τ : Type} : Call τ → Bool
  | Call.ArDeleteApp _ _ _ => true
  | _ => false

/-- Is the call an existence check. -/
def Call.isCheckAppIsExisted {τ : Type} : Call τ → Bool
  | Call.CheckAppIsExisted _ _ => true
  | _ => false

/-- Is the call a `CreateAppResource`. -/
def Call.isCreateAppResource {τ : Type} : Call τ → Bool
  | Call.CreateAppResource _ _ => true
  | _ => false

/-- Is the call a registry `CreateApp`. -/
def Call.isCreateApp {τ : Type} : Call τ → Bool
  | Call.CreateApp _ => true
  | _ => false

/-- Is the call a `DeleteAppResource`. -/
def Call.isDeleteAppResource {τ : Type} : Call τ → Bool
  | Call.DeleteAppResource _ _ => true
  | _ => false

/-- Is the call the patch hook. -/
def Call.isPatcher {τ : Type} : Call τ → Bool
  | Call.Patcher _ => true
  | _ => false

/-- Is the call a `ReconfigureApp`. -/
def Call.isReconfigureApp {τ : Type} : Call τ → Bool
  | Call.ReconfigureApp _ _ _ => true
  | _ => false

/-- Is the call one of the create path: render, cluster create, registry
create, the compensations, or the patch hook. -/
def Call.isCreatePath {τ : Type} : Call τ → Bool
  | Call.GenerateAppObject _ _ _ _ _ => true
  | Call.CreateAppResource _ _ => true
  | Call.DeleteAppResource _ _ => true
  | Call.CreateApp _ => true
  | Call.ModelDeleteApp _ => true
  | Call.Patcher _ => true
  | _ => false

/-- The test guarding the deletion in the loop of `deleteApplication`,
`err == nil && exist && wk.arHandle.Cluster != app.Cluster`, on the result of
the existence check. -/
def eligible (res : Except Error Bool) (bound : String) (app : CaasApplication) : Bool :=
  match res with
  | Except.ok true => bound != app.Cluster
  | _ => false

/-- The error part of a Go `(value, err)` result. -/
def errOf {α : Type} : Except Error α → Option Error
  | Except.error e => some e
  | Except.ok _ => none

/-- The collaborators with the registry list of the cleanup replaced by one
that finds no candidate and leaves the world as it is. -/
def noCleanup {σ τ : Type} (env : Collaborators σ τ) : Collaborators σ τ :=
  { env with GetAppList := fun _ _ _ _ s => (Except.ok [], s) }

/-- The collaborators with every error of the cleanup silenced: a failed
registry list becomes an empty list, a failed existence check becomes "not
existed", and `DeleteApp` on a handle returns what `f` says while acting on
the world as before. -/
def quiet {σ τ : Type} (f : AppRes → String → String → σ → Option Error)
    (env : Collaborators σ τ) : Collaborators σ τ :=
  { env with
    GetAppList := fun q p c n a =>
      match env.GetAppList q p c n a with
      | (Except.error _, a1) => (Except.ok [], a1)
      | (Except.ok l, a1) => (Except.ok l, a1)
    CheckAppIsExisted := fun k n a =>
      match env.CheckAppIsExisted k n a with
      | (Except.error _, a1) => (Except.ok false, a1)
      | (Except.ok b, a1) => (Except.ok b, a1)
    ArDeleteApp := fun ar ns n a => (f ar ns n a, (env.ArDeleteApp ar ns n a).2) }

/-! ## A fake world for concrete runs

The registry is a list of records; the outcomes of the cluster operations,
of rendering and of the registry writes are fixed by a configuration. -/

/-- The outcomes the fake collaborators give. -/
structure FakeCfg where
  render : Except Error CaasApplication
  createRes : Option Error
  createApp : Option Error
  reconfigure : Option Error
  existed : Except Error Bool
  arDelete : Option Error

/-- The fake collaborators over a registry held as a list of records. -/
def fakeEnv (cfg : FakeCfg) : Collaborators (List CaasApplication) String where
  GetExoticAppListByName := fun cluster ns name reg =>
    (Except.ok (reg.filter (fun a =>
      decide (a.Cluster = cluster) && decide (a.Name = name) && !decide (a.Namespace = ns))), reg)
  GetAppByName := fun cluster ns name reg =>
    match reg.find? (fun a =>
      decide (a.Cluster = cluster) && decide (a.Name = name) && decide (a.Namespace = ns)) with
    | some a => (Except.ok a, reg)
    | none => (Except.error Error.ErrNoRows, reg)
  GetAppList := fun filter _ _ _ reg =>
    (Except.ok (reg.filter (fun a => decide (a.Name = filter.FilterVal))), reg)
  CreateApp := fun app reg =>
    match cfg.createApp with
    | some e => (some e, reg)
    | none => (none, reg ++ [app])
  ModelDeleteApp := fun app reg => (none, reg.filter (fun a => !decide (a = app)))
  ArDeleteApp := fun ar ns name reg =>
    match cfg.arDelete with
    | some e => (some e, reg)
    | none => (none, reg.filter (fun a =>
        !(decide (a.Cluster = ar.Cluster) && decide (a.Namespace = ns) && decide (a.Name = name))))
  ReconfigureApp := fun _ app _ reg =>
    match cfg.reconfigure with
    | some e => (Except.error e, reg)
    | none => (Except.ok app, reg)
  CheckAppIsExisted := fun _ _ reg => (cfg.existed, reg)
  CreateAppResource := fun _ _ reg => (cfg.createRes, reg)
  DeleteAppResource := fun _ _ reg => (none, reg)
  GenerateAppObject := fun _ _ _ _ _ reg => (cfg.render, reg)

/-- The record `(c1, ns-a, svc)`. -/
def recA : CaasApplication :=
  { Cluster := "c1", Namespace := "ns-a", Name := "svc", Kind := "deployment" }

/-- The record rendered for `svc` in `ns-b` of `c1`. -/
def recB : CaasApplication :=
  { Cluster := "c1", Namespace := "ns-b", Name := "svc", Kind := "deployment" }

/-- A record of `svc` left under cluster `c2`. -/
def recStray : CaasApplication :=
  { Cluster := "c2", Namespace := "ns-b", Name := "svc", Kind := "deployment" }

/-- A configuration in which every collaborator succeeds. -/
def cfgOk : FakeCfg :=
  { render := Except.ok recB, createRes := none, createApp := none, reconfigure := none,
    existed := Except.ok true, arDelete := none }

/-- A worker for `svc` bound to cluster `c1`, namespace `ns-b`. -/
def wkB (ext : Option (ExtensionParam (List CaasApplication))) :
    DeployWorker (List CaasApplication) String :=
  NewDeployWorker "svc" "ns-b" "deployment" { Cluster := "c1", ProjectID := 7 } ext "tpl"

/-- A configuration in which `ReconfigureApp` fails. -/
def cfgReconfFails : FakeCfg :=
  { cfgOk with reconfigure := some (Error.msg "reconfigure failed") }

/-- A configuration in which the registry `CreateApp` fails. -/
def cfgCreateAppFails : FakeCfg :=
  { cfgOk with createApp := some (Error.msg "create app failed") }

/-- A configuration in which rendering fails. -/
def cfgRenderFails : FakeCfg :=
  { cfgOk with render := Except.error (Error.msg "render failed") }

/-- A patch hook that empties the registry. -/
def wipePatcher : CaasApplication → List CaasApplication → List CaasApplication :=
  fun _ _ => []

/-- A configuration in which `CreateAppResource` fails. -/
def cfgCreateResFails : FakeCfg :=
  { cfgOk with createRes := some (Error.msg "create resource failed") }

/-- A configuration in which every `DeleteApp` on a handle fails. -/
def cfgDeleteFails : FakeCfg :=
  { cfgOk with arDelete := some (Error.msg "delete failed") }

/-- A record of `svc` left under cluster `c3`. -/
def recStray3 : CaasApplication :=
  { Cluster := "c3", Namespace := "ns-b", Name := "svc", Kind := "deployment" }

/-- The fake collaborators with a cluster that refuses to create the
resource while the registry still holds a record under another cluster. -/
def staleEnv : Collaborators (List CaasApplication) String :=
  { fakeEnv cfgOk with
    CreateAppResource := fun kr _ reg =>
      if reg.any (fun a => !decide (a.Cluster = kr.cluster)) then
        (some (Error.msg "already exists"), reg)
      else (none, reg) }

/-! ## Lemmas and claims -/

/-- With no exotic record the check succeeds after the lookup alone. -/
theorem checkAppRes_empty {σ τ : Type} (env : Collaborators σ τ) (wk : DeployWorker σ τ)
    (appname : String) (s s1 : σ)
    (hlook : env.GetExoticAppListByName wk.arHandle.Cluster wk.kubeRes.Namespace appname s
      = (Except.ok [], s1)) :
    checkAppRes env wk appname s
      = ⟨Outcome.ret none, s1,
          [Call.GetExoticAppListByName wk.arHandle.Cluster wk.kubeRes.Namespace appname]⟩ := by
  simp [checkAppRes, hlook]

/-- With a policy, whatever its force flag, a non-empty exotic list ends the
check in the conflict error after the lookup alone. -/
theorem checkAppRes_exotic {σ τ : Type} (env : Collaborators σ τ) (wk : DeployWorker σ τ)
    (appname : String) (s s1 : σ) (ext : ExtensionParam σ) (l : List CaasApplication)
    (hext : wk.extension = some ext)
    (hlook : env.GetExoticAppListByName wk.arHandle.Cluster wk.kubeRes.Namespace appname s
      = (Except.ok l, s1))
    (hne : l ≠ []) :
    checkAppRes env wk appname s
      = ⟨Outcome.ret (some (Error.msg
            (conflictMsg appname (l.map (fun app => app.Namespace)) wk.arHandle.Cluster))), s1,
          [Call.GetExoticAppListByName wk.arHandle.Cluster wk.kubeRes.Namespace appname]⟩ := by
  cases l with
  | nil => exact absurd rfl hne
  | cons a t =>
    cases hf : ext.Force <;> simp [checkAppRes, hlook, hext, hf, conflictCheck]

/-- The check passes only when the lookup succeeds with an empty list, and
then it has issued the lookup and nothing else. -/
theorem checkAppRes_pass {σ τ : Type} (env : Collaborators σ τ) (wk : DeployWorker σ τ)
    (appname : String) (s : σ)
    (hpass : (checkAppRes env wk appname s).val = Outcome.ret none) :
    env.GetExoticAppListByName wk.arHandle.Cluster wk.kubeRes.Namespace appname s
        = (Except.ok [], (checkAppRes env wk appname s).world) ∧
      (checkAppRes env wk appname s).calls
        = [Call.GetExoticAppListByName wk.arHandle.Cluster wk.kubeRes.Namespace appname] := by
  rcases hlook : env.GetExoticAppListByName wk.arHandle.Cluster wk.kubeRes.Namespace appname s
    with ⟨res, s1⟩
  cases res with
  | error e => simp [checkAppRes, hlook] at hpass
  | ok l =>
    cases l with
    | nil => simp [checkAppRes, hlook]
    | cons a t =>
      cases hx : wk.extension with
      | none => simp [checkAppRes, hlook, hx] at hpass
      | some ext =>
        have h := checkAppRes_exotic env wk appname s s1 ext (a :: t) hx hlook (by simp)
        rw [h] at hpass
        simp at hpass

/-- The guard holds exactly when the existence check returned `(true, nil)`
and the record's cluster differs from the bound one. -/
theorem eligible_iff (res : Except Error Bool) (bound : String) (app : CaasApplication) :
    eligible res bound app = true ↔ res = Except.ok true ∧ bound ≠ app.Cluster := by
  cases res with
  | error e => simp [eligible]
  | ok b => cases b <;> simp [eligible]

/-- One iteration of the loop of `deleteApplication`, unfolded. -/
theorem cleanupLoop_cons {σ τ : Type} (env : Collaborators σ τ) (v : CleanupVars σ τ)
    (app : CaasApplication) (rest : List CaasApplication) (s : σ) :
    cleanupLoop env v (app :: rest) s =
      if eligible (env.CheckAppIsExisted v.wk.kubeRes app.Name s).1 v.wk.arHandle.Cluster app then
        (⟨(cleanupLoop env { v with ar := { v.ar with Cluster := app.Cluster } } rest
            (env.ArDeleteApp { v.ar with Cluster := app.Cluster } app.Namespace app.Name
              (env.CheckAppIsExisted v.wk.kubeRes app.Name s).2).2).val,
          (cleanupLoop env { v with ar := { v.ar with Cluster := app.Cluster } } rest
            (env.ArDeleteApp { v.ar with Cluster := app.Cluster } app.Namespace app.Name
              (env.CheckAppIsExisted v.wk.kubeRes app.Name s).2).2).world,
          Call.CheckAppIsExisted v.wk.kubeRes app.Name ::
            Call.ArDeleteApp { v.ar with Cluster := app.Cluster } app.Namespace app.Name ::
            (cleanupLoop env { v with ar := { v.ar with Cluster := app.Cluster } } rest
              (env.ArDeleteApp { v.ar with Cluster := app.Cluster } app.Namespace app.Name
                (env.CheckAppIsExisted v.wk.kubeRes app.Name s).2).2).calls⟩ :
          Step σ τ (CleanupVars σ τ))
      else
        ⟨(cleanupLoop env v rest (env.CheckAppIsExisted v.wk.kubeRes app.Name s).2).val,
          (cleanupLoop env v rest (env.CheckAppIsExisted v.wk.kubeRes app.Name s).2).world,
          Call.CheckAppIsExisted v.wk.kubeRes app.Name ::
            (cleanupLoop env v rest (env.CheckAppIsExisted v.wk.kubeRes app.Name s).2).calls⟩ := by
  rcases h : env.CheckAppIsExisted v.wk.kubeRes app.Name s with ⟨res, s1⟩
  cases res with
  | error e => simp [cleanupLoop, h, eligible]
  | ok b =>
    cases b with
    | false => simp [cleanupLoop, h, eligible]
    | true =>
      by_cases hc : v.wk.arHandle.Cluster = app.Cluster
      · simp [cleanupLoop, h, hc, eligible]
      · simp [cleanupLoop, h, hc, eligible]

/-- The loop never writes the worker: the worker among the variables of the
loop, its handle included, is after the loop what it was before. -/
theorem cleanupLoop_wk {σ τ : Type} (env : Collaborators σ τ) (l : List CaasApplication) :
    ∀ (v : CleanupVars σ τ) (s : σ), (cleanupLoop env v l s).val.wk = v.wk := by
  induction l with
  | nil => intro v s; simp [cleanupLoop]
  | cons app rest ih =>
    intro v s
    rw [cleanupLoop_cons]
    split
    · simp [ih]
    · simp [ih]

/-- The loop keeps the project of the handle copy. -/
theorem cleanupLoop_projectID {σ τ : Type} (env : Collaborators σ τ)
    (l : List CaasApplication) :
    ∀ (v : CleanupVars σ τ) (s : σ),
      (cleanupLoop env v l s).val.ar.ProjectID = v.ar.ProjectID := by
  induction l with
  | nil => intro v s; simp [cleanupLoop]
  | cons app rest ih =>
    intro v s
    rw [cleanupLoop_cons]
    split
    · simp [ih]
    · simp [ih]

/-- The calls and the world of the loop depend on the handle copy only
through its project: the cluster of the copy is overwritten before each use. -/
theorem cleanupLoop_copy {σ τ : Type} (env : Collaborators σ τ) (l : List CaasApplication) :
    ∀ (v v2 : CleanupVars σ τ) (s : σ), v.wk = v2.wk → v.ar.ProjectID = v2.ar.ProjectID →
      (cleanupLoop env v l s).calls = (cleanupLoop env v2 l s).calls ∧
      (cleanupLoop env v l s).world = (cleanupLoop env v2 l s).world := by
  induction l with
  | nil => intro v v2 s _ _; simp [cleanupLoop]
  | cons app rest ih =>
    intro v v2 s hw hp
    rw [cleanupLoop_cons, cleanupLoop_cons]
    have e : ({ v.ar with Cluster := app.Cluster } : AppRes)
        = { v2.ar with Cluster := app.Cluster } := by
      simp [hp]
    rw [hw, e]
    split
    · have h := ih { v with ar := { v2.ar with Cluster := app.Cluster } }
        { v2 with ar := { v2.ar with Cluster := app.Cluster } }
        (env.ArDeleteApp { v2.ar with Cluster := app.Cluster } app.Namespace app.Name
          (env.CheckAppIsExisted v2.wk.kubeRes app.Name s).2).2 hw rfl
      rw [← e] at h ⊢
      simp [h.1, h.2]
    · have h := ih v v2 (env.CheckAppIsExisted v2.wk.kubeRes app.Name s).2 hw hp
      simp [h.1, h.2]

/-- The loop over a concatenation is the loop over the first part followed
by the loop over the second part from the world the first part leaves. -/
theorem cleanupLoop_append {σ τ : Type} (env : Collaborators σ τ)
    (l1 l2 : List CaasApplication) :
    ∀ (v : CleanupVars σ τ) (s : σ),
      cleanupLoop env v (l1 ++ l2) s =
        ⟨(cleanupLoop env (cleanupLoop env v l1 s).val l2 (cleanupLoop env v l1 s).world).val,
          (cleanupLoop env (cleanupLoop env v l1 s).val l2 (cleanupLoop env v l1 s).world).world,
          (cleanupLoop env v l1 s).calls ++
            (cleanupLoop env (cleanupLoop env v l1 s).val l2
              (cleanupLoop env v l1 s).world).calls⟩ := by
  induction l1 with
  | nil => intro v s; simp [cleanupLoop]
  | cons app rest ih =>
    intro v s
    rw [List.cons_append, cleanupLoop_cons, cleanupLoop_cons]
    split
    · simp only [ih]
      simp
    · simp only [ih]
      simp

/-- Every call of the loop is an existence check or a `DeleteApp` on a handle. -/
theorem cleanupLoop_calls {σ τ : Type} (env : Collaborators σ τ) (l : List CaasApplication) :
    ∀ (v : CleanupVars σ τ) (s : σ), ∀ c ∈ (cleanupLoop env v l s).calls,
      c.isCleanup = true := by
  induction l with
  | nil => intro v s c hc; simp [cleanupLoop] at hc
  | cons app rest ih =>
    intro v s c hc
    rw [cleanupLoop_cons] at hc
    split at hc
    · simp only [List.mem_cons] at hc
      rcases hc with rfl | rfl | hc
      · rfl
      · rfl
      · exact ih _ _ c hc
    · simp only [List.mem_cons] at hc
      rcases hc with rfl | hc
      · rfl
      · exact ih _ _ c hc

/-- The method `deleteApplication` after a list call that succeeded. -/
theorem deleteApplication_ok {σ τ : Type} (env : Collaborators σ τ) (wk : DeployWorker σ τ)
    (appname : String) (s s1 : σ) (l : List CaasApplication)
    (hlist : env.GetAppList (nameFilter appname) wk.arHandle.ProjectID wk.kubeRes.cluster
      wk.kubeRes.Namespace s = (Except.ok l, s1)) :
    deleteApplication env wk appname s
      = ⟨wk, (cleanupLoop env { wk := wk, ar := wk.arHandle } l s1).world,
          Call.GetAppList (nameFilter appname) wk.arHandle.ProjectID wk.kubeRes.cluster
              wk.kubeRes.Namespace ::
            (cleanupLoop env { wk := wk, ar := wk.arHandle } l s1).calls⟩ := by
  simp [deleteApplication, hlist, cleanupLoop_wk]

/-- The method `deleteApplication` after a list call that failed. -/
theorem deleteApplication_error {σ τ : Type} (env : Collaborators σ τ) (wk : DeployWorker σ τ)
    (appname : String) (s s1 : σ) (e : Error)
    (hlist : env.GetAppList (nameFilter appname) wk.arHandle.ProjectID wk.kubeRes.cluster
      wk.kubeRes.Namespace s = (Except.error e, s1)) :
    deleteApplication env wk appname s
      = ⟨wk, s1, [Call.GetAppList (nameFilter appname) wk.arHandle.ProjectID wk.kubeRes.cluster
          wk.kubeRes.Namespace]⟩ := by
  simp [deleteApplication, hlist]

/-- Every call of `deleteApplication` is a cleanup call. -/
theorem deleteApplication_calls {σ τ : Type} (env : Collaborators σ τ) (wk : DeployWorker σ τ)
    (appname : String) (s : σ) :
    ∀ c ∈ (deleteApplication env wk appname s).calls, c.isCleanup = true := by
  intro c hc
  rcases h : env.GetAppList (nameFilter appname) wk.arHandle.ProjectID wk.kubeRes.cluster
    wk.kubeRes.Namespace s with ⟨res, s1⟩
  cases res with
  | error e =>
    rw [deleteApplication_error env wk appname s s1 e h] at hc
    simp at hc
    subst hc
    rfl
  | ok l =>
    rw [deleteApplication_ok env wk appname s s1 l h] at hc
    simp only [List.mem_cons] at hc
    rcases hc with rfl | hc
    · rfl
    · exact cleanupLoop_calls env l _ _ c hc

/-- The method `deleteApplication` leaves the worker as it was. -/
theorem deleteApplication_val {σ τ : Type} (env : Collaborators σ τ) (wk : DeployWorker σ τ)
    (appname : String) (s : σ) : (deleteApplication env wk appname s).val = wk := by
  rcases h : env.GetAppList (nameFilter appname) wk.arHandle.ProjectID wk.kubeRes.cluster
    wk.kubeRes.Namespace s with ⟨res, s1⟩
  cases res with
  | error e => rw [deleteApplication_error env wk appname s s1 e h]
  | ok l => rw [deleteApplication_ok env wk appname s s1 l h]

/-- C1: with force=false and a non-empty exotic list, `Start` returns the
conflict error whose message lists the namespace of every exotic record in
list order, leaves the world as the lookup left it, and has issued the exotic
lookup and no other call, so no mutating call at all. -/
theorem C1_conflict_without_force {σ τ : Type} (env : Collaborators σ τ)
    (wk : DeployWorker σ τ) (templateName : String) (param : AppParam) (s s1 : σ)
    (ext : ExtensionParam σ) (l : List CaasApplication)
    (hext : wk.extension = some ext) (hforce : ext.Force = false)
    (hlook : env.GetExoticAppListByName wk.arHandle.Cluster wk.kubeRes.Namespace param.Name s
      = (Except.ok l, s1))
    (hne : l ≠ []) :
    (Start env wk templateName param s).val
        = Outcome.ret (some (Error.msg
            ("the application(" ++ param.Name ++ ") is existed in namespace " ++
              ("[" ++ " ".intercalate (l.map (fun app => app.Namespace)) ++ "]") ++
              " of cluster " ++ wk.arHandle.Cluster ++
              ", and you have no right to cover the old application"))) ∧
      (Start env wk templateName param s).world = s1 ∧
      (Start env wk templateName param s).calls
        = [Call.GetExoticAppListByName wk.arHandle.Cluster wk.kubeRes.Namespace param.Name] ∧
      ∀ c ∈ (Start env wk templateName param s).calls, c.isMutating = false := by
  cases l with
  | nil => exact absurd rfl hne
  | cons a t =>
    have hs : Start env wk templateName param s
        = ⟨Outcome.ret (some (Error.msg (conflictMsg param.Name
              ((a :: t).map (fun app => app.Namespace)) wk.arHandle.Cluster))), s1,
            [Call.GetExoticAppListByName wk.arHandle.Cluster wk.kubeRes.Namespace param.Name]⟩ := by
      simp [Start, checkAppRes, hlook, hext, hforce, conflictCheck]
    rw [hs]
    refine ⟨rfl, rfl, rfl, ?_⟩
    intro c hc
    simp at hc
    subst hc
    rfl

/-- C1 on the scenario of the specification: cluster `c1` holds `(c1, ns-a,
svc)`, the worker for `ns-b` starts `svc` without force. -/
theorem C1_conflict_without_force_witness :
    (Start (fakeEnv cfgOk) (wkB (some { Force := false, Patcher := none })) "tpl1"
        { Name := "svc" } [recA]).val
      = Outcome.ret (some (Error.msg
          "the application(svc) is existed in namespace [ns-a] of cluster c1, and you have no right to cover the old application")) ∧
    (Start (fakeEnv cfgOk) (wkB (some { Force := false, Patcher := none })) "tpl1"
        { Name := "svc" } [recA]).calls
      = [Call.GetExoticAppListByName "c1" "ns-b" "svc"] :=
  have h := C1_conflict_without_force (fakeEnv cfgOk)
    (wkB (some { Force := false, Patcher := none })) "tpl1" { Name := "svc" } [recA] [recA]
    { Force := false, Patcher := none } [recA] rfl rfl rfl (by simp)
  ⟨h.1, h.2.2.1⟩

/-- C2: the code at the failing input.  With force=true and the exotic
record `(c1, ns-a, svc)`, `checkAppRes` attempts no `DeleteApp`: it issues
the lookup alone, leaves the record in the registry and returns the conflict
error. -/
theorem C2_force_skips_deletion :
    (checkAppRes (fakeEnv cfgOk) (wkB (some { Force := true, Patcher := none })) "svc"
        [recA]).val
      = Outcome.ret (some (Error.msg
          "the application(svc) is existed in namespace [ns-a] of cluster c1, and you have no right to cover the old application")) ∧
    (checkAppRes (fakeEnv cfgOk) (wkB (some { Force := true, Patcher := none })) "svc"
        [recA]).calls
      = [Call.GetExoticAppListByName "c1" "ns-b" "svc"] ∧
    (checkAppRes (fakeEnv cfgOk) (wkB (some { Force := true, Patcher := none })) "svc"
        [recA]).world = [recA] ∧
    ((fakeEnv cfgOk).ArDeleteApp { Cluster := "c1", ProjectID := 7 } "ns-a" "svc" [recA]).1
      = none :=
  ⟨rfl, rfl, rfl, rfl⟩

/-- C10: the code at the failing input.  A worker built with a nil policy
panics in `Start` when the exotic lookup returns a record: `checkAppRes`
reads `wk.extension.Force` without the nil test `createAppRes` makes. -/
theorem C10_nil_policy_panics :
    (Start (fakeEnv cfgOk) (wkB none) "tpl1" { Name := "svc" } [recA]).val = Outcome.panic ∧
    (wkB none).extension = none ∧
    ((fakeEnv cfgOk).GetExoticAppListByName "c1" "ns-b" "svc" [recA]).1 = Except.ok [recA] :=
  ⟨rfl, rfl, rfl⟩

/-- Every call of `createKubeAppRes` is a create-path call or a cleanup call. -/
theorem createKubeAppRes_calls {σ τ : Type} (env : Collaborators σ τ) (wk : DeployWorker σ τ)
    (templateName : String) (param : AppParam) (s : σ) :
    ∀ c ∈ (createKubeAppRes env wk templateName param s).calls,
      c.isCreatePath = true ∨ c.isCleanup = true := by
  intro c hc
  rcases hg : env.GenerateAppObject wk.template wk.arHandle.Cluster wk.kubeRes.Namespace
    templateName wk.arHandle.ProjectID s with ⟨res, s1⟩
  cases res with
  | error e =>
    simp [createKubeAppRes, hg] at hc
    subst hc
    exact Or.inl rfl
  | ok app =>
    have hmem : c = Call.GenerateAppObject wk.template wk.arHandle.Cluster wk.kubeRes.Namespace
          templateName wk.arHandle.ProjectID ∨
        c ∈ (deleteApplication env wk param.Name s1).calls ∨
        c = Call.CreateAppResource wk.kubeRes wk.template := by
      rcases hr : env.CreateAppResource wk.kubeRes wk.template
        (deleteApplication env wk param.Name s1).world with ⟨r, s2⟩
      cases r <;>
        simpa [createKubeAppRes, hg, deleteApplication_val, hr] using hc
    rcases hmem with rfl | h | rfl
    · exact Or.inl rfl
    · exact Or.inr (deleteApplication_calls env wk param.Name s1 c h)
    · exact Or.inl rfl

/-- Every call of `createAppRes` is a create-path call or a cleanup call. -/
theorem createAppRes_calls {σ τ : Type} (env : Collaborators σ τ) (wk : DeployWorker σ τ)
    (templateName : String) (param : AppParam) (s : σ) :
    ∀ c ∈ (createAppRes env wk templateName param s).calls,
      c.isCreatePath = true ∨ c.isCleanup = true := by
  intro c hc
  have hk := createKubeAppRes_calls env wk templateName param s
  cases hv : (createKubeAppRes env wk templateName param s).val with
  | error e =>
    simp [createAppRes, hv] at hc
    exact hk c hc
  | ok app =>
    rcases hcr : env.CreateApp app (createKubeAppRes env wk templateName param s).world
      with ⟨r, s1⟩
    cases r with
    | some e =>
      simp [createAppRes, hv, hcr] at hc
      rcases hc with h | rfl | rfl | rfl
      · exact hk c h
      · exact Or.inl rfl
      · exact Or.inl rfl
      · exact Or.inl rfl
    | none =>
      simp [createAppRes, hv, hcr] at hc
      rcases hc with h | rfl | h
      · exact hk c h
      · exact Or.inl rfl
      · cases hx : wk.extension with
        | none => simp [runPatcher, hx] at h
        | some ext =>
          cases hp : ext.Patcher with
          | none => simp [runPatcher, hx, hp] at h
          | some patch =>
            simp [runPatcher, hx, hp] at h
            subst h
            exact Or.inl rfl

/-- A create-path call or a cleanup call is no `ReconfigureApp`. -/
theorem not_reconfigure_of_create_or_cleanup {τ : Type} (c : Call τ)
    (h : c.isCreatePath = true ∨ c.isCleanup = true) : c.isReconfigureApp = false := by
  cases c <;> simp_all [Call.isCreatePath, Call.isCleanup, Call.isReconfigureApp]

/-- A cleanup call is no create-path call. -/
theorem not_createPath_of_cleanup {τ : Type} (c : Call τ)
    (h : c.isCleanup = true) : c.isCreatePath = false := by
  cases c <;> simp_all [Call.isCreatePath, Call.isCleanup]

/-- A predicate false on every cleanup call counts nothing in the calls of
`deleteApplication`. -/
theorem countP_cleanup {σ τ : Type} (env : Collaborators σ τ) (wk : DeployWorker σ τ)
    (appname : String) (s : σ) (p : Call τ → Bool)
    (hp : ∀ c : Call τ, c.isCleanup = true → p c = false) :
    (deleteApplication env wk appname s).calls.countP p = 0 := by
  rw [List.countP_eq_zero]
  intro c hc
  simp [hp c (deleteApplication_calls env wk appname s c hc)]

/-- The method `deleteApplication` issues no `DeleteAppResource`. -/
theorem countP_cleanup_isDeleteAppResource {σ τ : Type} (env : Collaborators σ τ)
    (wk : DeployWorker σ τ) (appname : String) (s : σ) :
    (deleteApplication env wk appname s).calls.countP Call.isDeleteAppResource = 0 :=
  countP_cleanup env wk appname s _ (by
    intro c h
    cases c <;> simp_all [Call.isCleanup, Call.isDeleteAppResource])

/-- The method `deleteApplication` does not call the patch hook. -/
theorem countP_cleanup_isPatcher {σ τ : Type} (env : Collaborators σ τ)
    (wk : DeployWorker σ τ) (appname : String) (s : σ) :
    (deleteApplication env wk appname s).calls.countP Call.isPatcher = 0 :=
  countP_cleanup env wk appname s _ (by
    intro c h
    cases c <;> simp_all [Call.isCleanup, Call.isPatcher])

/-- The method `deleteApplication` issues no `CreateAppResource`. -/
theorem countP_cleanup_isCreateAppResource {σ τ : Type} (env : Collaborators σ τ)
    (wk : DeployWorker σ τ) (appname : String) (s : σ) :
    (deleteApplication env wk appname s).calls.countP Call.isCreateAppResource = 0 :=
  countP_cleanup env wk appname s _ (by
    intro c h
    cases c <;> simp_all [Call.isCleanup, Call.isCreateAppResource])

/-- The method `deleteApplication` issues no registry `CreateApp`. -/
theorem countP_cleanup_isCreateApp {σ τ : Type} (env : Collaborators σ τ)
    (wk : DeployWorker σ τ) (appname : String) (s : σ) :
    (deleteApplication env wk appname s).calls.countP Call.isCreateApp = 0 :=
  countP_cleanup env wk appname s _ (by
    intro c h
    cases c <;> simp_all [Call.isCleanup, Call.isCreateApp])

/-- C3: when the uniqueness check passes, the lookup `GetAppByName` alone
picks the branch of `Start`.  A found record gives the update path: cleanup,
then `ReconfigureApp` on that record with the worker's template, whose error
is returned as it is, and no call of the create path.  `orm.ErrNoRows` gives
the create path, which never calls `ReconfigureApp`.  Any other lookup error
is returned as it is after the two lookups alone. -/
theorem C3_one_branch {σ τ : Type} (env : Collaborators σ τ) (wk : DeployWorker σ τ)
    (templateName : String) (param : AppParam) (s : σ)
    (hpass : (checkAppRes env wk param.Name s).val = Outcome.ret none) :
    (∀ (app : CaasApplication) (s2 : σ),
      env.GetAppByName wk.arHandle.Cluster wk.kubeRes.Namespace param.Name
          (checkAppRes env wk param.Name s).world = (Except.ok app, s2) →
        Start env wk templateName param s
          = ⟨Outcome.ret (errOf (env.ReconfigureApp wk.arHandle app wk.template
                (deleteApplication env wk app.Name s2).world).1),
              (env.ReconfigureApp wk.arHandle app wk.template
                (deleteApplication env wk app.Name s2).world).2,
              Call.GetExoticAppListByName wk.arHandle.Cluster wk.kubeRes.Namespace param.Name ::
                Call.GetAppByName wk.arHandle.Cluster wk.kubeRes.Namespace param.Name ::
                ((deleteApplication env wk app.Name s2).calls ++
                  [Call.ReconfigureApp wk.arHandle app wk.template])⟩ ∧
        ∀ c ∈ (Start env wk templateName param s).calls, c.isCreatePath = false) ∧
    (∀ (s2 : σ),
      env.GetAppByName wk.arHandle.Cluster wk.kubeRes.Namespace param.Name
          (checkAppRes env wk param.Name s).world = (Except.error Error.ErrNoRows, s2) →
        Start env wk templateName param s
          = ⟨Outcome.ret (createAppRes env wk templateName param s2).val,
              (createAppRes env wk templateName param s2).world,
              Call.GetExoticAppListByName wk.arHandle.Cluster wk.kubeRes.Namespace param.Name ::
                Call.GetAppByName wk.arHandle.Cluster wk.kubeRes.Namespace param.Name ::
                (createAppRes env wk templateName param s2).calls⟩ ∧
        ∀ c ∈ (Start env wk templateName param s).calls, c.isReconfigureApp = false) ∧
    (∀ (err : Error) (s2 : σ), err ≠ Error.ErrNoRows →
      env.GetAppByName wk.arHandle.Cluster wk.kubeRes.Namespace param.Name
          (checkAppRes env wk param.Name s).world = (Except.error err, s2) →
        Start env wk templateName param s
          = ⟨Outcome.ret (some err), s2,
              [Call.GetExoticAppListByName wk.arHandle.Cluster wk.kubeRes.Namespace param.Name,
                Call.GetAppByName wk.arHandle.Cluster wk.kubeRes.Namespace param.Name]⟩) := by
  obtain ⟨-, hcalls⟩ := checkAppRes_pass env wk param.Name s hpass
  refine ⟨?_, ?_, ?_⟩
  · intro app s2 hget
    have hs : Start env wk templateName param s
          = ⟨Outcome.ret (errOf (env.ReconfigureApp wk.arHandle app wk.template
                (deleteApplication env wk app.Name s2).world).1),
              (env.ReconfigureApp wk.arHandle app wk.template
                (deleteApplication env wk app.Name s2).world).2,
              Call.GetExoticAppListByName wk.arHandle.Cluster wk.kubeRes.Namespace param.Name ::
                Call.GetAppByName wk.arHandle.Cluster wk.kubeRes.Namespace param.Name ::
                ((deleteApplication env wk app.Name s2).calls ++
                  [Call.ReconfigureApp wk.arHandle app wk.template])⟩ := by
      rcases hr : env.ReconfigureApp wk.arHandle app wk.template
        (deleteApplication env wk app.Name s2).world with ⟨r, s3⟩
      cases r <;>
        simp [Start, hpass, hget, hcalls, updateAppRes, deleteApplication_val, hr, errOf]
    refine ⟨hs, ?_⟩
    rw [hs]
    intro c hc
    simp only [List.mem_cons, List.mem_append, List.mem_singleton, List.not_mem_nil,
      or_false] at hc
    rcases hc with rfl | rfl | h | rfl
    · rfl
    · rfl
    · exact not_createPath_of_cleanup c (deleteApplication_calls env wk app.Name s2 c h)
    · rfl
  · intro s2 hget
    have hs : Start env wk templateName param s
          = ⟨Outcome.ret (createAppRes env wk templateName param s2).val,
              (createAppRes env wk templateName param s2).world,
              Call.GetExoticAppListByName wk.arHandle.Cluster wk.kubeRes.Namespace param.Name ::
                Call.GetAppByName wk.arHandle.Cluster wk.kubeRes.Namespace param.Name ::
                (createAppRes env wk templateName param s2).calls⟩ := by
      simp [Start, hpass, hget, hcalls]
    refine ⟨hs, ?_⟩
    rw [hs]
    intro c hc
    simp only [List.mem_cons] at hc
    rcases hc with rfl | rfl | h
    · rfl
    · rfl
    · exact not_reconfigure_of_create_or_cleanup c
        (createAppRes_calls env wk templateName param s2 c h)
  · intro err s2 hne hget
    simp [Start, hpass, hget, hcalls, hne]

/-- C3 on a run: the registry holds `(c1, ns-b, svc)` and a stray record
under `c2`; `Start` takes the update path and returns the error of
`ReconfigureApp`. -/
theorem C3_one_branch_witness :
    (checkAppRes (fakeEnv cfgReconfFails) (wkB none) "svc" [recB, recStray]).val
      = Outcome.ret none ∧
    Start (fakeEnv cfgReconfFails) (wkB none) "tpl1" { Name := "svc" } [recB, recStray]
      = ⟨Outcome.ret (some (Error.msg "reconfigure failed")), [recB],
          [Call.GetExoticAppListByName "c1" "ns-b" "svc", Call.GetAppByName "c1" "ns-b" "svc",
            Call.GetAppList (nameFilter "svc") 7 "c1" "ns-b",
            Call.CheckAppIsExisted (NewKubeAppRes "c1" "ns-b" "deployment") "svc",
            Call.CheckAppIsExisted (NewKubeAppRes "c1" "ns-b" "deployment") "svc",
            Call.ArDeleteApp { Cluster := "c2", ProjectID := 7 } "ns-b" "svc",
            Call.ReconfigureApp { Cluster := "c1", ProjectID := 7 } recB "tpl"]⟩ :=
  ⟨rfl, ((C3_one_branch (fakeEnv cfgReconfFails) (wkB none) "tpl1" { Name := "svc" }
    [recB, recStray] rfl).1 recB [recB, recStray] rfl).1⟩

/-- C4: on the create path, when rendering and cluster creation succeed and
the registry `CreateApp` fails with `e`, `createAppRes` calls
`DeleteAppResource` on the worker's template once, then the registry
`DeleteApp` of the record, and returns `e` whatever those two calls return;
the patch hook is not called. -/
theorem C4_compensation {σ τ : Type} (env : Collaborators σ τ) (wk : DeployWorker σ τ)
    (templateName : String) (param : AppParam) (s s1 s2 s3 : σ) (app : CaasApplication)
    (e : Error)
    (hgen : env.GenerateAppObject wk.template wk.arHandle.Cluster wk.kubeRes.Namespace
      templateName wk.arHandle.ProjectID s = (Except.ok app, s1))
    (hres : env.CreateAppResource wk.kubeRes wk.template
      (deleteApplication env wk param.Name s1).world = (none, s2))
    (hcreate : env.CreateApp app s2 = (some e, s3)) :
    createAppRes env wk templateName param s
      = ⟨some e,
          (env.ModelDeleteApp app (env.DeleteAppResource wk.kubeRes wk.template s3).2).2,
          Call.GenerateAppObject wk.template wk.arHandle.Cluster wk.kubeRes.Namespace
              templateName wk.arHandle.ProjectID ::
            ((deleteApplication env wk param.Name s1).calls ++
              [Call.CreateAppResource wk.kubeRes wk.template, Call.CreateApp app,
                Call.DeleteAppResource wk.kubeRes wk.template, Call.ModelDeleteApp app])⟩ ∧
    (createAppRes env wk templateName param s).calls.countP Call.isDeleteAppResource = 1 ∧
    (createAppRes env wk templateName param s).calls.countP Call.isPatcher = 0 := by
  have hs : createAppRes env wk templateName param s
      = ⟨some e,
          (env.ModelDeleteApp app (env.DeleteAppResource wk.kubeRes wk.template s3).2).2,
          Call.GenerateAppObject wk.template wk.arHandle.Cluster wk.kubeRes.Namespace
              templateName wk.arHandle.ProjectID ::
            ((deleteApplication env wk param.Name s1).calls ++
              [Call.CreateAppResource wk.kubeRes wk.template, Call.CreateApp app,
                Call.DeleteAppResource wk.kubeRes wk.template, Call.ModelDeleteApp app])⟩ := by
    simp [createAppRes, createKubeAppRes, hgen, deleteApplication_val, hres, hcreate]
  refine ⟨hs, ?_, ?_⟩
  · rw [hs]
    simp [List.countP_cons, List.countP_append, Call.isDeleteAppResource,
      countP_cleanup_isDeleteAppResource env wk param.Name s1]
  · rw [hs]
    simp [List.countP_cons, List.countP_append, Call.isPatcher,
      countP_cleanup_isPatcher env wk param.Name s1]

/-- C4 on a run: the registry refuses the new record; the cluster resource is
deleted, the registry delete is attempted, and the registry error returns. -/
theorem C4_compensation_witness :
    createAppRes (fakeEnv cfgCreateAppFails) (wkB none) "tpl1" { Name := "svc" } []
      = ⟨some (Error.msg "create app failed"), [],
          [Call.GenerateAppObject "tpl" "c1" "ns-b" "tpl1" 7,
            Call.GetAppList (nameFilter "svc") 7 "c1" "ns-b",
            Call.CreateAppResource (NewKubeAppRes "c1" "ns-b" "deployment") "tpl",
            Call.CreateApp recB,
            Call.DeleteAppResource (NewKubeAppRes "c1" "ns-b" "deployment") "tpl",
            Call.ModelDeleteApp recB]⟩ :=
  (C4_compensation (fakeEnv cfgCreateAppFails) (wkB none) "tpl1" { Name := "svc" } [] [] [] []
    recB (Error.msg "create app failed") rfl rfl rfl).1

/-- C7: on the create path, when rendering fails with `e`, `Start` returns
`e` after the two lookups and the rendering call alone: no cleanup call, no
cluster or registry create or delete, no patch hook. -/
theorem C7_render_failure {σ τ : Type} (env : Collaborators σ τ) (wk : DeployWorker σ τ)
    (templateName : String) (param : AppParam) (s s1 s2 s3 : σ) (e : Error)
    (hex : env.GetExoticAppListByName wk.arHandle.Cluster wk.kubeRes.Namespace param.Name s
      = (Except.ok [], s1))
    (hget : env.GetAppByName wk.arHandle.Cluster wk.kubeRes.Namespace param.Name s1
      = (Except.error Error.ErrNoRows, s2))
    (hgen : env.GenerateAppObject wk.template wk.arHandle.Cluster wk.kubeRes.Namespace
      templateName wk.arHandle.ProjectID s2 = (Except.error e, s3)) :
    Start env wk templateName param s
      = ⟨Outcome.ret (some e), s3,
          [Call.GetExoticAppListByName wk.arHandle.Cluster wk.kubeRes.Namespace param.Name,
            Call.GetAppByName wk.arHandle.Cluster wk.kubeRes.Namespace param.Name,
            Call.GenerateAppObject wk.template wk.arHandle.Cluster wk.kubeRes.Namespace
              templateName wk.arHandle.ProjectID]⟩ ∧
    (∀ c ∈ (Start env wk templateName param s).calls,
      c.isCleanup = false ∧ c.isMutating = false) := by
  have hs : Start env wk templateName param s
      = ⟨Outcome.ret (some e), s3,
          [Call.GetExoticAppListByName wk.arHandle.Cluster wk.kubeRes.Namespace param.Name,
            Call.GetAppByName wk.arHandle.Cluster wk.kubeRes.Namespace param.Name,
            Call.GenerateAppObject wk.template wk.arHandle.Cluster wk.kubeRes.Namespace
              templateName wk.arHandle.ProjectID]⟩ := by
    simp [Start, checkAppRes, hex, hget, createAppRes, createKubeAppRes, hgen]
  refine ⟨hs, ?_⟩
  rw [hs]
  intro c hc
  simp only [List.mem_cons, List.not_mem_nil, or_false] at hc
  rcases hc with rfl | rfl | rfl <;> exact ⟨rfl, rfl⟩

/-- C7 on a run: a stray record is in the registry, rendering fails, and the
registry is left as it was. -/
theorem C7_render_failure_witness :
    Start (fakeEnv cfgRenderFails) (wkB none) "tpl1" { Name := "svc" } [recStray]
      = ⟨Outcome.ret (some (Error.msg "render failed")), [recStray],
          [Call.GetExoticAppListByName "c1" "ns-b" "svc", Call.GetAppByName "c1" "ns-b" "svc",
            Call.GenerateAppObject "tpl" "c1" "ns-b" "tpl1" 7]⟩ :=
  (C7_render_failure (fakeEnv cfgRenderFails) (wkB none) "tpl1" { Name := "svc" }
    [recStray] [recStray] [recStray] [recStray] (Error.msg "render failed") rfl rfl rfl).1

/-- C6: with no exotic record and no registry record, when rendering,
cluster creation and registry creation succeed, `Start` returns nil; its
calls are the two lookups, the rendering, the cleanup, one
`CreateAppResource`, one registry `CreateApp` of the rendered record, and
then the patch step; a policy with a patch hook has the hook run once, last,
on the created record, whatever the hook does to the world. -/
theorem C6_create_success {σ τ : Type} (env : Collaborators σ τ) (wk : DeployWorker σ τ)
    (templateName : String) (param : AppParam) (s s1 s2 s3 s4 s5 : σ) (app : CaasApplication)
    (hex : env.GetExoticAppListByName wk.arHandle.Cluster wk.kubeRes.Namespace param.Name s
      = (Except.ok [], s1))
    (hget : env.GetAppByName wk.arHandle.Cluster wk.kubeRes.Namespace param.Name s1
      = (Except.error Error.ErrNoRows, s2))
    (hgen : env.GenerateAppObject wk.template wk.arHandle.Cluster wk.kubeRes.Namespace
      templateName wk.arHandle.ProjectID s2 = (Except.ok app, s3))
    (hres : env.CreateAppResource wk.kubeRes wk.template
      (deleteApplication env wk param.Name s3).world = (none, s4))
    (hcreate : env.CreateApp app s4 = (none, s5)) :
    Start env wk templateName param s
      = ⟨Outcome.ret none, (runPatcher wk app s5).world,
          Call.GetExoticAppListByName wk.arHandle.Cluster wk.kubeRes.Namespace param.Name ::
            Call.GetAppByName wk.arHandle.Cluster wk.kubeRes.Namespace param.Name ::
            Call.GenerateAppObject wk.template wk.arHandle.Cluster wk.kubeRes.Namespace
              templateName wk.arHandle.ProjectID ::
            ((deleteApplication env wk param.Name s3).calls ++
              Call.CreateAppResource wk.kubeRes wk.template :: Call.CreateApp app ::
                (runPatcher wk app s5).calls)⟩ ∧
    (Start env wk templateName param s).calls.countP Call.isCreateAppResource = 1 ∧
    (Start env wk templateName param s).calls.countP Call.isCreateApp = 1 ∧
    (∀ (ext : ExtensionParam σ) (patch : CaasApplication → σ → σ),
      wk.extension = some ext → ext.Patcher = some patch →
        runPatcher wk app s5 = ⟨(), patch app s5, [Call.Patcher app]⟩ ∧
        (Start env wk templateName param s).calls.countP Call.isPatcher = 1) := by
  have hs : Start env wk templateName param s
      = ⟨Outcome.ret none, (runPatcher wk app s5).world,
          Call.GetExoticAppListByName wk.arHandle.Cluster wk.kubeRes.Namespace param.Name ::
            Call.GetAppByName wk.arHandle.Cluster wk.kubeRes.Namespace param.Name ::
            Call.GenerateAppObject wk.template wk.arHandle.Cluster wk.kubeRes.Namespace
              templateName wk.arHandle.ProjectID ::
            ((deleteApplication env wk param.Name s3).calls ++
              Call.CreateAppResource wk.kubeRes wk.template :: Call.CreateApp app ::
                (runPatcher wk app s5).calls)⟩ := by
    simp [Start, checkAppRes, hex, hget, createAppRes, createKubeAppRes, hgen,
      deleteApplication_val, hres, hcreate]
  have hp : ∀ c ∈ (runPatcher wk app s5).calls, c = Call.Patcher app := by
    intro c hc
    cases hx : wk.extension with
    | none => simp [runPatcher, hx] at hc
    | some ext =>
      cases hq : ext.Patcher with
      | none => simp [runPatcher, hx, hq] at hc
      | some patch => simpa [runPatcher, hx, hq] using hc
  have hp1 : (runPatcher wk app s5).calls.countP Call.isCreateAppResource = 0 := by
    rw [List.countP_eq_zero]
    intro c hc
    rw [hp c hc]
    simp [Call.isCreateAppResource]
  have hp2 : (runPatcher wk app s5).calls.countP Call.isCreateApp = 0 := by
    rw [List.countP_eq_zero]
    intro c hc
    rw [hp c hc]
    simp [Call.isCreateApp]
  refine ⟨hs, ?_, ?_, ?_⟩
  · rw [hs]
    simp [List.countP_cons, List.countP_append, Call.isCreateAppResource, hp1,
      countP_cleanup_isCreateAppResource env wk param.Name s3]
  · rw [hs]
    simp [List.countP_cons, List.countP_append, Call.isCreateApp, hp2,
      countP_cleanup_isCreateApp env wk param.Name s3]
  · intro ext patch hx hq
    have hr : runPatcher wk app s5 = ⟨(), patch app s5, [Call.Patcher app]⟩ := by
      simp [runPatcher, hx, hq]
    refine ⟨hr, ?_⟩
    rw [hs, hr]
    simp [List.countP_cons, List.countP_append, Call.isPatcher,
      countP_cleanup_isPatcher env wk param.Name s3]

/-- C6 on a run: an empty registry, every collaborator succeeds, and the
policy carries a patch hook. -/
theorem C6_create_success_witness :
    Start (fakeEnv cfgOk) (wkB (some { Force := false, Patcher := some wipePatcher })) "tpl1"
        { Name := "svc" } []
      = ⟨Outcome.ret none, [],
          [Call.GetExoticAppListByName "c1" "ns-b" "svc", Call.GetAppByName "c1" "ns-b" "svc",
            Call.GenerateAppObject "tpl" "c1" "ns-b" "tpl1" 7,
            Call.GetAppList (nameFilter "svc") 7 "c1" "ns-b",
            Call.CreateAppResource (NewKubeAppRes "c1" "ns-b" "deployment") "tpl",
            Call.CreateApp recB, Call.Patcher recB]⟩ :=
  (C6_create_success (fakeEnv cfgOk)
    (wkB (some { Force := false, Patcher := some wipePatcher })) "tpl1" { Name := "svc" }
    [] [] [] [] [] [recB] recB rfl rfl rfl rfl rfl).1

/-- C8 as stated fails: the registry holds a record of `svc` under cluster
`c2`; there is no exotic record and no record for `(c1, ns-b, svc)`, the
rendering succeeds and `CreateAppResource` fails.  `Start` returns that
error, yet the cleanup that ran before the creation attempt has called
`DeleteApp` on the stray record and the registry has lost it. -/
theorem C8_cleanup_deletes_before_create :
    ((fakeEnv cfgCreateResFails).GetExoticAppListByName "c1" "ns-b" "svc" [recStray]).1
      = Except.ok [] ∧
    ((fakeEnv cfgCreateResFails).GetAppByName "c1" "ns-b" "svc" [recStray]).1
      = Except.error Error.ErrNoRows ∧
    Start (fakeEnv cfgCreateResFails) (wkB none) "tpl1" { Name := "svc" } [recStray]
      = ⟨Outcome.ret (some (Error.msg "create resource failed")), [],
          [Call.GetExoticAppListByName "c1" "ns-b" "svc", Call.GetAppByName "c1" "ns-b" "svc",
            Call.GenerateAppObject "tpl" "c1" "ns-b" "tpl1" 7,
            Call.GetAppList (nameFilter "svc") 7 "c1" "ns-b",
            Call.CheckAppIsExisted (NewKubeAppRes "c1" "ns-b" "deployment") "svc",
            Call.ArDeleteApp { Cluster := "c2", ProjectID := 7 } "ns-b" "svc",
            Call.CreateAppResource (NewKubeAppRes "c1" "ns-b" "deployment") "tpl"]⟩ ∧
    ¬ (∀ c ∈ (Start (fakeEnv cfgCreateResFails) (wkB none) "tpl1" { Name := "svc" }
        [recStray]).calls, c.isArDeleteApp = false) := by
  refine ⟨rfl, rfl, rfl, ?_⟩
  intro h
  have h2 := h (Call.ArDeleteApp { Cluster := "c2", ProjectID := 7 } "ns-b" "svc")
    (by
      have hs : (Start (fakeEnv cfgCreateResFails) (wkB none) "tpl1" { Name := "svc" }
          [recStray]).calls
          = [Call.GetExoticAppListByName "c1" "ns-b" "svc", Call.GetAppByName "c1" "ns-b" "svc",
            Call.GenerateAppObject "tpl" "c1" "ns-b" "tpl1" 7,
            Call.GetAppList (nameFilter "svc") 7 "c1" "ns-b",
            Call.CheckAppIsExisted (NewKubeAppRes "c1" "ns-b" "deployment") "svc",
            Call.ArDeleteApp { Cluster := "c2", ProjectID := 7 } "ns-b" "svc",
            Call.CreateAppResource (NewKubeAppRes "c1" "ns-b" "deployment") "tpl"] := rfl
      rw [hs]
      simp)
  simp [Call.isArDeleteApp] at h2

/-- C8, amended: on the create path, when `CreateAppResource` fails with
`e`, `Start` returns `e`; its calls are the two lookups, the rendering, the
cleanup and the failed creation attempt.  So no registry record is created,
no compensation and no patch hook is run, and the only mutating calls are the
creation attempt and the `DeleteApp` calls the cleanup issued before it. -/
theorem C8_create_resource_failure {σ τ : Type} (env : Collaborators σ τ)
    (wk : DeployWorker σ τ) (templateName : String) (param : AppParam) (s s1 s2 s3 s4 : σ)
    (app : CaasApplication) (e : Error)
    (hex : env.GetExoticAppListByName wk.arHandle.Cluster wk.kubeRes.Namespace param.Name s
      = (Except.ok [], s1))
    (hget : env.GetAppByName wk.arHandle.Cluster wk.kubeRes.Namespace param.Name s1
      = (Except.error Error.ErrNoRows, s2))
    (hgen : env.GenerateAppObject wk.template wk.arHandle.Cluster wk.kubeRes.Namespace
      templateName wk.arHandle.ProjectID s2 = (Except.ok app, s3))
    (hres : env.CreateAppResource wk.kubeRes wk.template
      (deleteApplication env wk param.Name s3).world = (some e, s4)) :
    Start env wk templateName param s
      = ⟨Outcome.ret (some e), s4,
          Call.GetExoticAppListByName wk.arHandle.Cluster wk.kubeRes.Namespace param.Name ::
            Call.GetAppByName wk.arHandle.Cluster wk.kubeRes.Namespace param.Name ::
            Call.GenerateAppObject wk.template wk.arHandle.Cluster wk.kubeRes.Namespace
              templateName wk.arHandle.ProjectID ::
            ((deleteApplication env wk param.Name s3).calls ++
              [Call.CreateAppResource wk.kubeRes wk.template])⟩ ∧
    (∀ c ∈ (Start env wk templateName param s).calls, c.isMutating = true →
      c = Call.CreateAppResource wk.kubeRes wk.template ∨
      (c ∈ (deleteApplication env wk param.Name s3).calls ∧ c.isArDeleteApp = true)) := by
  have hs : Start env wk templateName param s
      = ⟨Outcome.ret (some e), s4,
          Call.GetExoticAppListByName wk.arHandle.Cluster wk.kubeRes.Namespace param.Name ::
            Call.GetAppByName wk.arHandle.Cluster wk.kubeRes.Namespace param.Name ::
            Call.GenerateAppObject wk.template wk.arHandle.Cluster wk.kubeRes.Namespace
              templateName wk.arHandle.ProjectID ::
            ((deleteApplication env wk param.Name s3).calls ++
              [Call.CreateAppResource wk.kubeRes wk.template])⟩ := by
    simp [Start, checkAppRes, hex, hget, createAppRes, createKubeAppRes, hgen,
      deleteApplication_val, hres]
  refine ⟨hs, ?_⟩
  rw [hs]
  intro c hc hm
  simp only [List.mem_cons, List.mem_append, List.mem_singleton, List.not_mem_nil,
    or_false] at hc
  rcases hc with rfl | rfl | rfl | h | rfl
  · simp [Call.isMutating] at hm
  · simp [Call.isMutating] at hm
  · simp [Call.isMutating] at hm
  · refine Or.inr ⟨h, ?_⟩
    have hcl := deleteApplication_calls env wk param.Name s3 c h
    cases c <;> simp_all [Call.isMutating, Call.isCleanup, Call.isArDeleteApp]
  · exact Or.inl rfl

/-- The amended C8 on a run: nothing to clean up, the cluster refuses the
resource, and the registry is left empty. -/
theorem C8_create_resource_failure_witness :
    Start (fakeEnv cfgCreateResFails) (wkB none) "tpl1" { Name := "svc" } []
      = ⟨Outcome.ret (some (Error.msg "create resource failed")), [],
          [Call.GetExoticAppListByName "c1" "ns-b" "svc", Call.GetAppByName "c1" "ns-b" "svc",
            Call.GenerateAppObject "tpl" "c1" "ns-b" "tpl1" 7,
            Call.GetAppList (nameFilter "svc") 7 "c1" "ns-b",
            Call.CreateAppResource (NewKubeAppRes "c1" "ns-b" "deployment") "tpl"]⟩ :=
  (C8_create_resource_failure (fakeEnv cfgCreateResFails) (wkB none) "tpl1" { Name := "svc" }
    [] [] [] [] [] recB (Error.msg "create resource failed") rfl rfl rfl rfl).1

/-- C9: let the registry list of `deleteApplication` return the candidates
`pre ++ app :: post`.  When the loop reaches `app` it checks its existence;
exactly when that check returned `(true, nil)` and the cluster of `app`
differs from the worker's, it runs `DeleteApp(app.Namespace, app.Name)` on a
copy of the worker's handle whose cluster is the cluster of `app`, and the
loop goes on with `post` from the world that deletion leaves; otherwise it
goes on from the world the check leaves.  The worker, its handle included, is
after the loop what it was before. -/
theorem C9_cleanup_candidate {σ τ : Type} (env : Collaborators σ τ) (wk : DeployWorker σ τ)
    (appname : String) (s s1 : σ) (pre post : List CaasApplication) (app : CaasApplication)
    (hlist : env.GetAppList (nameFilter appname) wk.arHandle.ProjectID wk.kubeRes.cluster
      wk.kubeRes.Namespace s = (Except.ok (pre ++ app :: post), s1)) :
    (((env.CheckAppIsExisted wk.kubeRes app.Name
          (cleanupLoop env { wk := wk, ar := wk.arHandle } pre s1).world).1 = Except.ok true ∧
        wk.arHandle.Cluster ≠ app.Cluster) →
      deleteApplication env wk appname s
        = ⟨wk,
            (cleanupLoop env { wk := wk, ar := wk.arHandle } post
              (env.ArDeleteApp { Cluster := app.Cluster, ProjectID := wk.arHandle.ProjectID }
                app.Namespace app.Name
                (env.CheckAppIsExisted wk.kubeRes app.Name
                  (cleanupLoop env { wk := wk, ar := wk.arHandle } pre s1).world).2).2).world,
            Call.GetAppList (nameFilter appname) wk.arHandle.ProjectID wk.kubeRes.cluster
              wk.kubeRes.Namespace ::
            ((cleanupLoop env { wk := wk, ar := wk.arHandle } pre s1).calls ++
              Call.CheckAppIsExisted wk.kubeRes app.Name ::
              Call.ArDeleteApp { Cluster := app.Cluster, ProjectID := wk.arHandle.ProjectID }
                app.Namespace app.Name ::
              (cleanupLoop env { wk := wk, ar := wk.arHandle } post
                (env.ArDeleteApp { Cluster := app.Cluster, ProjectID := wk.arHandle.ProjectID }
                  app.Namespace app.Name
                  (env.CheckAppIsExisted wk.kubeRes app.Name
                    (cleanupLoop env { wk := wk, ar := wk.arHandle } pre s1).world).2).2).calls)⟩) ∧
    (¬ ((env.CheckAppIsExisted wk.kubeRes app.Name
          (cleanupLoop env { wk := wk, ar := wk.arHandle } pre s1).world).1 = Except.ok true ∧
        wk.arHandle.Cluster ≠ app.Cluster) →
      deleteApplication env wk appname s
        = ⟨wk,
            (cleanupLoop env { wk := wk, ar := wk.arHandle } post
              (env.CheckAppIsExisted wk.kubeRes app.Name
                (cleanupLoop env { wk := wk, ar := wk.arHandle } pre s1).world).2).world,
            Call.GetAppList (nameFilter appname) wk.arHandle.ProjectID wk.kubeRes.cluster
              wk.kubeRes.Namespace ::
            ((cleanupLoop env { wk := wk, ar := wk.arHandle } pre s1).calls ++
              Call.CheckAppIsExisted wk.kubeRes app.Name ::
              (cleanupLoop env { wk := wk, ar := wk.arHandle } post
                (env.CheckAppIsExisted wk.kubeRes app.Name
                  (cleanupLoop env { wk := wk, ar := wk.arHandle } pre s1).world).2).calls)⟩) ∧
    (cleanupLoop env { wk := wk, ar := wk.arHandle } (pre ++ app :: post) s1).val.wk = wk := by
  have hV := cleanupLoop_wk env pre { wk := wk, ar := wk.arHandle } s1
  have hP := cleanupLoop_projectID env pre { wk := wk, ar := wk.arHandle } s1
  rcases hp : cleanupLoop env { wk := wk, ar := wk.arHandle } pre s1 with ⟨V, W, C⟩
  rw [hp] at hV hP
  simp only at hV hP
  have happ : cleanupLoop env { wk := wk, ar := wk.arHandle } (pre ++ app :: post) s1
      = ⟨(cleanupLoop env V (app :: post) W).val, (cleanupLoop env V (app :: post) W).world,
          C ++ (cleanupLoop env V (app :: post) W).calls⟩ := by
    rw [cleanupLoop_append, hp]
  have hcons := cleanupLoop_cons env V app post W
  rw [hV] at hcons
  have hd := deleteApplication_ok env wk appname s s1 (pre ++ app :: post) hlist
  refine ⟨?_, ?_, cleanupLoop_wk env _ _ _⟩
  · intro hel
    have hb := (eligible_iff _ _ _).2 hel
    rw [if_pos hb] at hcons
    have e : ({ V.ar with Cluster := app.Cluster } : AppRes)
        = { Cluster := app.Cluster, ProjectID := wk.arHandle.ProjectID } := by
      simp [hP]
    rw [e] at hcons
    have hc := cleanupLoop_copy env post
      { wk := wk, ar := { Cluster := app.Cluster, ProjectID := wk.arHandle.ProjectID } }
      { wk := wk, ar := wk.arHandle }
      (env.ArDeleteApp { Cluster := app.Cluster, ProjectID := wk.arHandle.ProjectID }
        app.Namespace app.Name (env.CheckAppIsExisted wk.kubeRes app.Name W).2).2 rfl rfl
    rw [hd, happ, hcons]
    simp only [hc.1, hc.2]
  · intro hel
    have hb : eligible (env.CheckAppIsExisted wk.kubeRes app.Name W).1 wk.arHandle.Cluster app
        = false := by
      cases hq : eligible (env.CheckAppIsExisted wk.kubeRes app.Name W).1
        wk.arHandle.Cluster app with
      | false => rfl
      | true => exact absurd ((eligible_iff _ _ _).1 hq) hel
    rw [hb] at hcons
    have hc := cleanupLoop_copy env post V { wk := wk, ar := wk.arHandle }
      (env.CheckAppIsExisted wk.kubeRes app.Name W).2 hV hP
    rw [hd, happ, hcons]
    simp [hc.1, hc.2]

/-- C9 on a run: the list returns the worker's own record and a stray one
under `c2`; only the stray one is deleted, on a handle rebound to `c2`, the
registry loses that record, and the worker is as it was. -/
theorem C9_cleanup_candidate_witness :
    deleteApplication (fakeEnv cfgOk) (wkB none) "svc" [recB, recStray]
      = ⟨wkB none, [recB],
          [Call.GetAppList (nameFilter "svc") 7 "c1" "ns-b",
            Call.CheckAppIsExisted (NewKubeAppRes "c1" "ns-b" "deployment") "svc",
            Call.CheckAppIsExisted (NewKubeAppRes "c1" "ns-b" "deployment") "svc",
            Call.ArDeleteApp { Cluster := "c2", ProjectID := 7 } "ns-b" "svc"]⟩ :=
  (C9_cleanup_candidate (fakeEnv cfgOk) (wkB none) "svc" [recB, recStray] [recB, recStray]
    [recB] [] recStray rfl).1 ⟨rfl, by decide⟩

/-- The uniqueness check depends on the collaborators through the exotic
lookup alone: its uninstall loop is never reached. -/
theorem checkAppRes_congr {σ τ : Type} (env env2 : Collaborators σ τ) (wk : DeployWorker σ τ)
    (appname : String) (s : σ)
    (h : env2.GetExoticAppListByName = env.GetExoticAppListByName) :
    checkAppRes env2 wk appname s = checkAppRes env wk appname s := by
  rcases hlook : env.GetExoticAppListByName wk.arHandle.Cluster wk.kubeRes.Namespace appname s
    with ⟨res, s1⟩
  have hlook2 : env2.GetExoticAppListByName wk.arHandle.Cluster wk.kubeRes.Namespace appname s
      = (res, s1) := by rw [h, hlook]
  cases res with
  | error e => simp [checkAppRes, hlook, hlook2]
  | ok l =>
    cases l with
    | nil => simp [checkAppRes, hlook, hlook2]
    | cons a t =>
      cases hx : wk.extension with
      | none => simp [checkAppRes, hlook, hlook2, hx]
      | some ext =>
        rw [checkAppRes_exotic env wk appname s s1 ext (a :: t) hx hlook (by simp),
          checkAppRes_exotic env2 wk appname s s1 ext (a :: t) hx hlook2 (by simp)]

/-- Silencing the errors of the existence check changes neither the world it
leaves nor the guard of the loop. -/
theorem quiet_check {σ τ : Type} (f : AppRes → String → String → σ → Option Error)
    (env : Collaborators σ τ) (k : KubeAppRes) (n : String) (a : σ) (bound : String)
    (app : CaasApplication) :
    ((quiet f env).CheckAppIsExisted k n a).2 = (env.CheckAppIsExisted k n a).2 ∧
    eligible ((quiet f env).CheckAppIsExisted k n a).1 bound app
      = eligible (env.CheckAppIsExisted k n a).1 bound app := by
  rcases h : env.CheckAppIsExisted k n a with ⟨res, a1⟩
  cases res with
  | error e => simp [quiet, h, eligible]
  | ok b => simp [quiet, h]

/-- The loop of the cleanup runs the same with its errors silenced. -/
theorem cleanupLoop_quiet {σ τ : Type} (f : AppRes → String → String → σ → Option Error)
    (env : Collaborators σ τ) (l : List CaasApplication) :
    ∀ (v : CleanupVars σ τ) (s : σ), cleanupLoop (quiet f env) v l s = cleanupLoop env v l s := by
  induction l with
  | nil => intro v s; simp [cleanupLoop]
  | cons app rest ih =>
    intro v s
    rw [cleanupLoop_cons, cleanupLoop_cons]
    have hq := quiet_check f env v.wk.kubeRes app.Name s v.wk.arHandle.Cluster app
    rw [hq.1, hq.2]
    have hd : ∀ (ar : AppRes) (ns n : String) (a : σ),
        ((quiet f env).ArDeleteApp ar ns n a).2 = (env.ArDeleteApp ar ns n a).2 :=
      fun _ _ _ _ => rfl
    simp only [hd, ih]

/-- The method `deleteApplication` runs the same with the errors of the
cleanup silenced: a failed list call is an empty list, a failed existence
check is "not existed", and the error of `DeleteApp` is dropped. -/
theorem deleteApplication_quiet {σ τ : Type} (f : AppRes → String → String → σ → Option Error)
    (env : Collaborators σ τ) (wk : DeployWorker σ τ) (appname : String) (s : σ) :
    deleteApplication (quiet f env) wk appname s = deleteApplication env wk appname s := by
  rcases h : env.GetAppList (nameFilter appname) wk.arHandle.ProjectID wk.kubeRes.cluster
    wk.kubeRes.Namespace s with ⟨res, s1⟩
  cases res with
  | error e =>
    have h2 : (quiet f env).GetAppList (nameFilter appname) wk.arHandle.ProjectID
        wk.kubeRes.cluster wk.kubeRes.Namespace s = (Except.ok [], s1) := by
      simp [quiet, h]
    rw [deleteApplication_error env wk appname s s1 e h,
      deleteApplication_ok (quiet f env) wk appname s s1 [] h2]
    simp [cleanupLoop]
  | ok l =>
    have h2 : (quiet f env).GetAppList (nameFilter appname) wk.arHandle.ProjectID
        wk.kubeRes.cluster wk.kubeRes.Namespace s = (Except.ok l, s1) := by
      simp [quiet, h]
    rw [deleteApplication_ok env wk appname s s1 l h,
      deleteApplication_ok (quiet f env) wk appname s s1 l h2, cleanupLoop_quiet]

/-- The method `updateAppRes` runs the same with the errors of the cleanup silenced. -/
theorem updateAppRes_quiet {σ τ : Type} (f : AppRes → String → String → σ → Option Error)
    (env : Collaborators σ τ) (wk : DeployWorker σ τ) (app : CaasApplication) (s : σ) :
    updateAppRes (quiet f env) wk app s = updateAppRes env wk app s := by
  unfold updateAppRes
  rw [deleteApplication_quiet]
  rfl

/-- The method `createKubeAppRes` runs the same with the errors of the cleanup silenced. -/
theorem createKubeAppRes_quiet {σ τ : Type} (f : AppRes → String → String → σ → Option Error)
    (env : Collaborators σ τ) (wk : DeployWorker σ τ) (templateName : String)
    (param : AppParam) (s : σ) :
    createKubeAppRes (quiet f env) wk templateName param s
      = createKubeAppRes env wk templateName param s := by
  unfold createKubeAppRes
  simp only [deleteApplication_quiet]
  rfl

/-- The method `createAppRes` runs the same with the errors of the cleanup silenced. -/
theorem createAppRes_quiet {σ τ : Type} (f : AppRes → String → String → σ → Option Error)
    (env : Collaborators σ τ) (wk : DeployWorker σ τ) (templateName : String)
    (param : AppParam) (s : σ) :
    createAppRes (quiet f env) wk templateName param s
      = createAppRes env wk templateName param s := by
  unfold createAppRes
  rw [createKubeAppRes_quiet]
  rfl

/-- The method `Start` runs the same with the errors of the cleanup silenced. -/
theorem Start_quiet {σ τ : Type} (f : AppRes → String → String → σ → Option Error)
    (env : Collaborators σ τ) (wk : DeployWorker σ τ) (templateName : String)
    (param : AppParam) (s : σ) :
    Start (quiet f env) wk templateName param s = Start env wk templateName param s := by
  unfold Start
  rw [checkAppRes_congr env (quiet f env) wk param.Name s rfl]
  simp only [updateAppRes_quiet, createAppRes_quiet]
  rfl

/-- With no candidate the cleanup issues the list call and nothing else. -/
theorem deleteApplication_noCleanup {σ τ : Type} (env : Collaborators σ τ)
    (wk : DeployWorker σ τ) (appname : String) (s : σ) :
    deleteApplication (noCleanup env) wk appname s
      = ⟨wk, s, [Call.GetAppList (nameFilter appname) wk.arHandle.ProjectID wk.kubeRes.cluster
          wk.kubeRes.Namespace]⟩ := by
  rw [deleteApplication_ok (noCleanup env) wk appname s s [] rfl]
  simp [cleanupLoop]

/-- A relation kept on the left by the existence check on the worker's
binding and by `DeleteApp` on a handle of the worker's project rebound to
another cluster is kept on the left by the loop of the cleanup. -/
theorem cleanupLoop_rel {σ τ : Type} (env : Collaborators σ τ) (R : σ → σ → Prop)
    (kr : KubeAppRes) (bound : String) (pid : Int)
    (hChk : ∀ n a b, R a b → R (env.CheckAppIsExisted kr n a).2 b)
    (hDel : ∀ c ns n a b, c ≠ bound → R a b →
      R (env.ArDeleteApp { Cluster := c, ProjectID := pid } ns n a).2 b)
    (l : List CaasApplication) :
    ∀ (v : CleanupVars σ τ) (s b : σ), v.wk.kubeRes = kr → v.wk.arHandle.Cluster = bound →
      v.ar.ProjectID = pid → R s b → R (cleanupLoop env v l s).world b := by
  induction l with
  | nil => intro v s b _ _ _ h; simpa [cleanupLoop] using h
  | cons app rest ih =>
    intro v s b hk hb hp h
    rw [cleanupLoop_cons]
    split
    · rename_i hel
      have hne : app.Cluster ≠ bound := by
        have h2 := ((eligible_iff _ _ _).1 hel).2
        rw [hb] at h2
        exact fun h3 => h2 h3.symm
      have e : ({ v.ar with Cluster := app.Cluster } : AppRes)
          = { Cluster := app.Cluster, ProjectID := pid } := by
        simp [hp]
      rw [e, hk]
      exact ih _ _ _ hk hb rfl (hDel _ _ _ _ _ hne (hChk _ _ _ h))
    · rw [hk]
      exact ih _ _ _ hk hb hp (hChk _ _ _ h)

/-- A relation kept on the left by the three cleanup collaborators, on the
arguments the worker calls them with, is kept on the left by
`deleteApplication`. -/
theorem deleteApplication_rel {σ τ : Type} (env : Collaborators σ τ) (wk : DeployWorker σ τ)
    (R : σ → σ → Prop)
    (hList : ∀ n a b, R a b → R (env.GetAppList (nameFilter n) wk.arHandle.ProjectID
      wk.kubeRes.cluster wk.kubeRes.Namespace a).2 b)
    (hChk : ∀ n a b, R a b → R (env.CheckAppIsExisted wk.kubeRes n a).2 b)
    (hDel : ∀ c ns n a b, c ≠ wk.arHandle.Cluster → R a b →
      R (env.ArDeleteApp { Cluster := c, ProjectID := wk.arHandle.ProjectID } ns n a).2 b)
    (appname : String) (s b : σ) (h : R s b) :
    R (deleteApplication env wk appname s).world b := by
  have h1 := hList appname s b h
  rcases hq : env.GetAppList (nameFilter appname) wk.arHandle.ProjectID wk.kubeRes.cluster
    wk.kubeRes.Namespace s with ⟨res, s1⟩
  rw [hq] at h1
  cases res with
  | error e =>
    rw [deleteApplication_error env wk appname s s1 e hq]
    exact h1
  | ok l =>
    rw [deleteApplication_ok env wk appname s s1 l hq]
    exact cleanupLoop_rel env R wk.kubeRes wk.arHandle.Cluster wk.arHandle.ProjectID hChk hDel l
      _ _ _ rfl rfl rfl h1

/-- The loop of the cleanup checks every candidate: it issues as many
existence checks as there are candidates. -/
theorem cleanupLoop_checks {σ τ : Type} (env : Collaborators σ τ) (l : List CaasApplication) :
    ∀ (v : CleanupVars σ τ) (s : σ),
      (cleanupLoop env v l s).calls.countP Call.isCheckAppIsExisted = l.length := by
  induction l with
  | nil => intro v s; simp [cleanupLoop]
  | cons app rest ih =>
    intro v s
    rw [cleanupLoop_cons]
    split
    · simp [List.countP_cons, Call.isCheckAppIsExisted, ih]
    · simp [List.countP_cons, Call.isCheckAppIsExisted, ih]

/-- The value of `updateAppRes` is the error of `ReconfigureApp`. -/
theorem updateAppRes_val {σ τ : Type} (env : Collaborators σ τ) (wk : DeployWorker σ τ)
    (app : CaasApplication) (s : σ) :
    (updateAppRes env wk app s).val
      = errOf (env.ReconfigureApp wk.arHandle app wk.template
          (deleteApplication env wk app.Name s).world).1 := by
  rcases hr : env.ReconfigureApp wk.arHandle app wk.template
    (deleteApplication env wk app.Name s).world with ⟨r, s3⟩
  cases r <;> simp [updateAppRes, deleteApplication_val, hr, errOf]

/-- The value of `createAppRes` in terms of the results of rendering, of
`CreateAppResource` and of the registry `CreateApp`. -/
theorem createAppRes_val {σ τ : Type} (env : Collaborators σ τ) (wk : DeployWorker σ τ)
    (templateName : String) (param : AppParam) (s : σ) :
    (createAppRes env wk templateName param s).val
      = match (env.GenerateAppObject wk.template wk.arHandle.Cluster wk.kubeRes.Namespace
            templateName wk.arHandle.ProjectID s).1 with
        | Except.error e => some e
        | Except.ok app =>
          match (env.CreateAppResource wk.kubeRes wk.template
              (deleteApplication env wk param.Name
                (env.GenerateAppObject wk.template wk.arHandle.Cluster wk.kubeRes.Namespace
                  templateName wk.arHandle.ProjectID s).2).world).1 with
          | some e => some e
          | none =>
            (env.CreateApp app (env.CreateAppResource wk.kubeRes wk.template
              (deleteApplication env wk param.Name
                (env.GenerateAppObject wk.template wk.arHandle.Cluster wk.kubeRes.Namespace
                  templateName wk.arHandle.ProjectID s).2).world).2).1 := by
  rcases hg : env.GenerateAppObject wk.template wk.arHandle.Cluster wk.kubeRes.Namespace
    templateName wk.arHandle.ProjectID s with ⟨g, s1⟩
  cases g with
  | error e => simp [createAppRes, createKubeAppRes, hg]
  | ok app =>
    rcases hr : env.CreateAppResource wk.kubeRes wk.template
      (deleteApplication env wk param.Name s1).world with ⟨r, s2⟩
    cases r with
    | some e => simp [createAppRes, createKubeAppRes, hg, deleteApplication_val, hr]
    | none =>
      rcases hc : env.CreateApp app s2 with ⟨c, s3⟩
      cases c <;> simp [createAppRes, createKubeAppRes, hg, deleteApplication_val, hr, hc]

/-- C5 as stated fails: the cluster refuses to create the resource while a
record under another cluster is still in the registry.  With the stray record
`(c2, ns-b, svc)` the cleanup deletes it and `Start` returns nil; in the run
whose cleanup finds no candidate, with the same collaborators otherwise,
`Start` returns the creation error. -/
theorem C5_cleanup_changes_result :
    (Start staleEnv (wkB none) "tpl1" { Name := "svc" } [recStray]).val = Outcome.ret none ∧
    (Start (noCleanup staleEnv) (wkB none) "tpl1" { Name := "svc" } [recStray]).val
      = Outcome.ret (some (Error.msg "already exists")) ∧
    (Start staleEnv (wkB none) "tpl1" { Name := "svc" } [recStray]).val
      ≠ (Start (noCleanup staleEnv) (wkB none) "tpl1" { Name := "svc" } [recStray]).val := by
  have h1 : (Start staleEnv (wkB none) "tpl1" { Name := "svc" } [recStray]).val
      = Outcome.ret none := rfl
  have h2 : (Start (noCleanup staleEnv) (wkB none) "tpl1" { Name := "svc" } [recStray]).val
      = Outcome.ret (some (Error.msg "already exists")) := rfl
  refine ⟨h1, h2, ?_⟩
  rw [h1, h2]
  simp

/-- C5, amended: the cleanup is best-effort.  No error of the cleanup reaches
`Start` or stops it: `Start` runs the same, value, world and calls, when a
failed registry list is replaced by an empty list, a failed existence check by
"not existed", and the error of every `DeleteApp` by any other result.  The
update path returns nil when `ReconfigureApp` succeeds and the create path
returns nil when rendering, `CreateAppResource` and `CreateApp` succeed,
whatever the cleanup did.  After a `DeleteApp` that fails the loop goes on with
the remaining candidates from the world that call left, and the loop issues
one existence check per candidate.  When the worlds the cleanup leaves are
ones the primary path cannot tell from the worlds it started in (a relation
`R` kept by the cleanup calls, under which `ReconfigureApp`,
`CreateAppResource` and `CreateApp` return the same error), `Start` returns
what it returns in the run whose cleanup finds no candidate. -/
theorem C5_cleanup_errors_absorbed {σ τ : Type} (env : Collaborators σ τ) (wk : DeployWorker σ τ)
    (templateName : String) (param : AppParam) (s : σ) (R : σ → σ → Prop)
    (hrefl : ∀ a, R a a)
    (hList : ∀ n a b, R a b → R (env.GetAppList (nameFilter n) wk.arHandle.ProjectID
      wk.kubeRes.cluster wk.kubeRes.Namespace a).2 b)
    (hChk : ∀ n a b, R a b → R (env.CheckAppIsExisted wk.kubeRes n a).2 b)
    (hDel : ∀ c ns n a b, c ≠ wk.arHandle.Cluster → R a b →
      R (env.ArDeleteApp { Cluster := c, ProjectID := wk.arHandle.ProjectID } ns n a).2 b)
    (hRec : ∀ app a b, R a b →
      errOf (env.ReconfigureApp wk.arHandle app wk.template a).1
        = errOf (env.ReconfigureApp wk.arHandle app wk.template b).1)
    (hRes : ∀ a b, R a b →
      (env.CreateAppResource wk.kubeRes wk.template a).1
        = (env.CreateAppResource wk.kubeRes wk.template b).1 ∧
      R (env.CreateAppResource wk.kubeRes wk.template a).2
        (env.CreateAppResource wk.kubeRes wk.template b).2)
    (hApp : ∀ app a b, R a b → (env.CreateApp app a).1 = (env.CreateApp app b).1) :
    (∀ f : AppRes → String → String → σ → Option Error,
      Start (quiet f env) wk templateName param s = Start env wk templateName param s) ∧
    (Start env wk templateName param s).val
      = (Start (noCleanup env) wk templateName param s).val ∧
    (∀ (app app2 : CaasApplication) (s0 s3 : σ),
      env.ReconfigureApp wk.arHandle app wk.template
          (deleteApplication env wk app.Name s0).world = (Except.ok app2, s3) →
        (updateAppRes env wk app s0).val = none) ∧
    (∀ (app : CaasApplication) (s0 s1 s2 s3 : σ),
      env.GenerateAppObject wk.template wk.arHandle.Cluster wk.kubeRes.Namespace
          templateName wk.arHandle.ProjectID s0 = (Except.ok app, s1) →
      env.CreateAppResource wk.kubeRes wk.template
          (deleteApplication env wk param.Name s1).world = (none, s2) →
      env.CreateApp app s2 = (none, s3) →
        (createAppRes env wk templateName param s0).val = none) ∧
    (∀ (v : CleanupVars σ τ) (app : CaasApplication) (rest : List CaasApplication) (s0 : σ)
        (e : Error),
      (env.CheckAppIsExisted v.wk.kubeRes app.Name s0).1 = Except.ok true →
      v.wk.arHandle.Cluster ≠ app.Cluster →
      (env.ArDeleteApp { v.ar with Cluster := app.Cluster } app.Namespace app.Name
        (env.CheckAppIsExisted v.wk.kubeRes app.Name s0).2).1 = some e →
      cleanupLoop env v (app :: rest) s0
        = ⟨(cleanupLoop env { v with ar := { v.ar with Cluster := app.Cluster } } rest
              (env.ArDeleteApp { v.ar with Cluster := app.Cluster } app.Namespace app.Name
                (env.CheckAppIsExisted v.wk.kubeRes app.Name s0).2).2).val,
            (cleanupLoop env { v with ar := { v.ar with Cluster := app.Cluster } } rest
              (env.ArDeleteApp { v.ar with Cluster := app.Cluster } app.Namespace app.Name
                (env.CheckAppIsExisted v.wk.kubeRes app.Name s0).2).2).world,
            Call.CheckAppIsExisted v.wk.kubeRes app.Name ::
              Call.ArDeleteApp { v.ar with Cluster := app.Cluster } app.Namespace app.Name ::
              (cleanupLoop env { v with ar := { v.ar with Cluster := app.Cluster } } rest
                (env.ArDeleteApp { v.ar with Cluster := app.Cluster } app.Namespace app.Name
                  (env.CheckAppIsExisted v.wk.kubeRes app.Name s0).2).2).calls⟩) ∧
    (∀ (v : CleanupVars σ τ) (l : List CaasApplication) (s0 : σ),
      (cleanupLoop env v l s0).calls.countP Call.isCheckAppIsExisted = l.length) := by
  refine ⟨fun f => Start_quiet f env wk templateName param s, ?_, ?_, ?_, ?_,
    fun v l s0 => cleanupLoop_checks env l v s0⟩
  · have hd : ∀ (n : String) (a : σ), R (deleteApplication env wk n a).world a :=
      fun n a => deleteApplication_rel env wk R hList hChk hDel n a a (hrefl a)
    have hU : ∀ (app : CaasApplication) (a : σ),
        (updateAppRes env wk app a).val = (updateAppRes (noCleanup env) wk app a).val := by
      intro app a
      rw [updateAppRes_val, updateAppRes_val, deleteApplication_noCleanup]
      exact hRec _ _ _ (hd app.Name a)
    have hC : ∀ a : σ, (createAppRes env wk templateName param a).val
        = (createAppRes (noCleanup env) wk templateName param a).val := by
      intro a
      rw [createAppRes_val, createAppRes_val]
      simp only [deleteApplication_noCleanup]
      change _ = match (env.GenerateAppObject wk.template wk.arHandle.Cluster
            wk.kubeRes.Namespace templateName wk.arHandle.ProjectID a).1 with
        | Except.error e => some e
        | Except.ok app =>
          match (env.CreateAppResource wk.kubeRes wk.template
              (env.GenerateAppObject wk.template wk.arHandle.Cluster wk.kubeRes.Namespace
                  templateName wk.arHandle.ProjectID a).2).1 with
          | some e => some e
          | none =>
            (env.CreateApp app (env.CreateAppResource wk.kubeRes wk.template
              (env.GenerateAppObject wk.template wk.arHandle.Cluster wk.kubeRes.Namespace
                  templateName wk.arHandle.ProjectID a).2).2).1
      rcases hg : env.GenerateAppObject wk.template wk.arHandle.Cluster wk.kubeRes.Namespace
        templateName wk.arHandle.ProjectID a with ⟨g, a1⟩
      cases g with
      | error e => rfl
      | ok app =>
        have h1 := hRes _ _ (hd param.Name a1)
        simp only
        rw [h1.1]
        cases (env.CreateAppResource wk.kubeRes wk.template a1).1 with
        | some e => rfl
        | none => exact hApp app _ _ h1.2
    simp only [Start, checkAppRes_congr env (noCleanup env) wk param.Name s rfl]
    cases hv : (checkAppRes env wk param.Name s).val with
    | panic => simp [hv]
    | ret o =>
      cases o with
      | some e => simp [hv]
      | none =>
        change (match env.GetAppByName wk.arHandle.Cluster wk.kubeRes.Namespace param.Name
            (checkAppRes env wk param.Name s).world with
          | (Except.ok app, s1) => _
          | (Except.error err, s1) => _ : Step σ τ (Outcome (Option Error))).val
          = (match env.GetAppByName wk.arHandle.Cluster wk.kubeRes.Namespace param.Name
            (checkAppRes env wk param.Name s).world with
          | (Except.ok app, s1) => _
          | (Except.error err, s1) => _ : Step σ τ (Outcome (Option Error))).val
        rcases hg : env.GetAppByName wk.arHandle.Cluster wk.kubeRes.Namespace param.Name
          (checkAppRes env wk param.Name s).world with ⟨g, s1⟩
        cases g with
        | ok app => simp [hU]
        | error err =>
          by_cases he : err = Error.ErrNoRows
          · simp [he, hC]
          · simp [he]

  · intro app app2 s0 s3 h
    rw [updateAppRes_val, h]
    rfl
  · intro app s0 s1 s2 s3 hg hr hc
    rw [createAppRes_val]
    simp [hg, hr, hc]
  · intro v app rest s0 e hchk hcl _
    have hb := (eligible_iff _ _ _).2 ⟨hchk, hcl⟩
    rw [cleanupLoop_cons, if_pos hb]

/-- The amended C5 on a run: two stray records, every cleanup deletion fails
and leaves the registry as it was, both deletions are still attempted, and
`Start` returns nil as in the run without candidates. -/
theorem C5_cleanup_errors_absorbed_witness :
    (Start (noCleanup (fakeEnv cfgDeleteFails)) (wkB none) "tpl1" { Name := "svc" }
        [recStray, recStray3]).val = Outcome.ret none ∧
    (Start (fakeEnv cfgDeleteFails) (wkB none) "tpl1" { Name := "svc" }
        [recStray, recStray3]).calls
      = [Call.GetExoticAppListByName "c1" "ns-b" "svc", Call.GetAppByName "c1" "ns-b" "svc",
          Call.GenerateAppObject "tpl" "c1" "ns-b" "tpl1" 7,
          Call.GetAppList (nameFilter "svc") 7 "c1" "ns-b",
          Call.CheckAppIsExisted (NewKubeAppRes "c1" "ns-b" "deployment") "svc",
          Call.ArDeleteApp { Cluster := "c2", ProjectID := 7 } "ns-b" "svc",
          Call.CheckAppIsExisted (NewKubeAppRes "c1" "ns-b" "deployment") "svc",
          Call.ArDeleteApp { Cluster := "c3", ProjectID := 7 } "ns-b" "svc",
          Call.CreateAppResource (NewKubeAppRes "c1" "ns-b" "deployment") "tpl",
          Call.CreateApp recB] ∧
    (Start (fakeEnv cfgDeleteFails) (wkB none) "tpl1" { Name := "svc" }
        [recStray, recStray3]).val
      = (Start (noCleanup (fakeEnv cfgDeleteFails)) (wkB none) "tpl1" { Name := "svc" }
        [recStray, recStray3]).val ∧
    Start (quiet (fun _ _ _ _ => none) (fakeEnv cfgDeleteFails)) (wkB none) "tpl1"
        { Name := "svc" } [recStray, recStray3]
      = Start (fakeEnv cfgDeleteFails) (wkB none) "tpl1" { Name := "svc" }
        [recStray, recStray3] :=
  have h := C5_cleanup_errors_absorbed (fakeEnv cfgDeleteFails) (wkB none) "tpl1"
    { Name := "svc" } [recStray, recStray3] Eq
    (fun _ => rfl) (fun _ _ _ h => h) (fun _ _ _ h => h) (fun _ _ _ _ _ _ h => h)
    (fun _ _ _ h => h ▸ rfl) (fun _ _ h => h ▸ ⟨rfl, rfl⟩) (fun _ _ _ h => h ▸ rfl)
  ⟨rfl, rfl, h.2.1, h.1 (fun _ _ _ _ => none)⟩

end Kuberes
